import Mathlib

/-!
# OSC-Sync-Master: clock synchronisation, tick source and send scheduler

A shallow embedding of `Synchronisation/Synchronisation.c`, `Timer/Timer.c` and
`Send/Send.c`.  Unsigned machine integers are natural numbers reduced with an
explicit `% 2 ^ 64` or `% 2 ^ 32` wherever the C arithmetic can wrap.  File-scope
variables become fields of a state record that each function takes and returns.
-/

namespace OscSync

/-! ## Constants -/

/-- `SYSCLK` of `SystemDefinitions.h`: `80000000ul`. -/
def SYSCLK : Nat := 80000000

/-- `GetSystemClock()` of `HardwareProfile.h`. -/
def GetSystemClock : Nat := SYSCLK

/-- `TIMER_TICKS_PER_SECOND` of `Timer.h`. -/
def TIMER_TICKS_PER_SECOND : Nat := GetSystemClock

/-- `UINT32_MAX` of `stdint.h`. -/
def UINT32_MAX : Nat := 4294967295

/-- `THRESHOLD` of `Synchronisation.c`: `(TIMER_TICKS_PER_SECOND / 2)`. -/
def THRESHOLD : Nat := TIMER_TICKS_PER_SECOND / 2

/-- `SLOW_CLOCK_DRIFT` of `Synchronisation.c`. -/
def SLOW_CLOCK_DRIFT : Nat := 0

/-- `SYNCHRONISATION_RATE` of `Send.c`: messages per second. -/
def SYNCHRONISATION_RATE : Nat := 1

/-- Subtraction of two `uint64_t` values, wrapping modulo `2 ^ 64`. -/
def sub64 (a b : Nat) : Nat := (a % 2 ^ 64 + (2 ^ 64 - b % 2 ^ 64)) % 2 ^ 64

/-- Subtraction of two `uint32_t` values, wrapping modulo `2 ^ 32`. -/
def sub32 (a b : Nat) : Nat := (a % 2 ^ 32 + (2 ^ 32 - b % 2 ^ 32)) % 2 ^ 32

/-! ## Synchronisation.c -/

/-- The double-precision routines of `<ieee754.h>` used by `Synchronisation.c`.
The header is not part of the repository, so the routines are parameters of the
embedding; `D` stands for the type `ieee754dp`. -/
structure Ieee754dp (D : Type) where
  /-- Conversion from an unsigned 64-bit integer: `ieee754dp_fulong`. -/
  fulong : Nat → D
  /-- Conversion to an unsigned 64-bit integer: `ieee754dp_tulong`. -/
  tulong : D → Nat
  /-- Product: `ieee754dp_mul`. -/
  mul : D → D → D
  /-- Quotient: `ieee754dp_div`. -/
  div : D → D → D

/-- The file-scope variables of `Synchronisation.c`. -/
structure Synchronisation (D : Type) where
  /-- Constant ratio `ticksToOscTimeTag`. -/
  ticksToOscTimeTag : D
  /-- Constant ratio `oscTimeTagToTicks`. -/
  oscTimeTagToTicks : D
  /-- Offset added to timer ticks to yield the slave clock (`uint64_t`). -/
  slaveClockOffset : Nat
  /-- Offset added to timer ticks to yield the observed master clock (`uint64_t`). -/
  observedMasterClockOffset : Nat

/-- `SynchronisationInitialise`: stores the two conversion ratios. -/
def SynchronisationInitialise {D : Type} (fp : Ieee754dp D) (s : Synchronisation D) :
    Synchronisation D :=
  { s with
    ticksToOscTimeTag :=
      fp.div (fp.fulong UINT32_MAX) (fp.fulong (TIMER_TICKS_PER_SECOND + SLOW_CLOCK_DRIFT))
    oscTimeTagToTicks :=
      fp.div (fp.fulong (TIMER_TICKS_PER_SECOND + SLOW_CLOCK_DRIFT)) (fp.fulong UINT32_MAX) }

/-- The local `observedMasterClock` of `SynchronisationUpdate`: the OSC time tag
converted to ticks and stored in a `uint64_t`. -/
def observedMasterClock {D : Type} (fp : Ieee754dp D) (s : Synchronisation D)
    (oscTimeTag : Nat) : Nat :=
  fp.tulong (fp.mul (fp.fulong oscTimeTag) s.oscTimeTagToTicks) % 2 ^ 64

/-- The local `slowClock` of `SynchronisationUpdate`. -/
def slowClock {D : Type} (s : Synchronisation D) (timeOfArrival : Nat) : Nat :=
  (timeOfArrival + s.slaveClockOffset) % 2 ^ 64

/-- `SynchronisationUpdate`. -/
def SynchronisationUpdate {D : Type} (fp : Ieee754dp D) (s : Synchronisation D)
    (oscTimeTag timeOfArrival : Nat) : Synchronisation D :=
  let observedMasterClock := observedMasterClock fp s oscTimeTag
  let slowClock := slowClock s timeOfArrival
  let s1 := { s with observedMasterClockOffset := sub64 observedMasterClock timeOfArrival }
  if observedMasterClock < slowClock then
    if sub64 slowClock observedMasterClock < THRESHOLD then
      s1 -- ignore update if behind slave time and within threshold
    else
      { s1 with slaveClockOffset := s1.observedMasterClockOffset }
  else
    { s1 with slaveClockOffset := s1.observedMasterClockOffset }

/-- `SynchronisationTicksToOscTimeTag`. -/
def SynchronisationTicksToOscTimeTag {D : Type} (fp : Ieee754dp D) (s : Synchronisation D)
    (ticks64 : Nat) : Nat :=
  fp.tulong (fp.mul (fp.fulong ((ticks64 + s.slaveClockOffset) % 2 ^ 64)) s.ticksToOscTimeTag)
    % 2 ^ 64

/-- `SynchronisationTicksToOscTimeTagAsObserved`. -/
def SynchronisationTicksToOscTimeTagAsObserved {D : Type} (fp : Ieee754dp D)
    (s : Synchronisation D) (ticks64 : Nat) : Nat :=
  fp.tulong
      (fp.mul (fp.fulong ((ticks64 + s.observedMasterClockOffset) % 2 ^ 64)) s.ticksToOscTimeTag)
    % 2 ^ 64

/-! ## Timer.c -/

/-- The state of the tick source: the file-scope accumulator of `Timer.c` and the
free-running 32-bit hardware counter `TMR4`. -/
structure Timer where
  /-- The accumulator `timerOverflowCounter.value` (`uint64_t`). -/
  timerOverflowCounter : Nat
  /-- The hardware counter register `TMR4` (32 bits). -/
  TMR4 : Nat
  deriving DecidableEq, Repr

/-- The tick source at boot: the static accumulator is zero-initialised and the
counter starts from zero. -/
def bootTimer : Timer := { timerOverflowCounter := 0, TMR4 := 0 }

/-- `Timer5Interrupt`: the overflow handler. -/
def Timer5Interrupt (t : Timer) : Timer :=
  { t with timerOverflowCounter := (t.timerOverflowCounter + UINT32_MAX) % 2 ^ 64 }

/-- One period of the hardware clock: the counter is incremented modulo `2 ^ 32`
and a wrap to zero raises the overflow interrupt, which runs `Timer5Interrupt`. -/
def clockStep (t : Timer) : Timer :=
  let t1 := { t with TMR4 := (t.TMR4 + 1) % 2 ^ 32 }
  if t1.TMR4 = 0 then Timer5Interrupt t1 else t1

/-- A number of consecutive clock periods. -/
def clockSteps : Nat → Timer → Timer
  | 0, t => t
  | n + 1, t => clockSteps n (clockStep t)

/-- `TimerGetTicks32`. -/
def TimerGetTicks32 (t : Timer) : Nat := t.TMR4

/-- `TimerGetTicks64`.  Each pass of the `do ... while` loop takes one pair
`(a, b)` from the list: `a` clock periods elapse between sampling the accumulator
and reading `TMR4`, and `b` between reading `TMR4` and reading the accumulator
again in the loop condition.  The result is the returned `value` with the state of
the tick source at the return; `none` when the list ends while the loop is still
retrying. -/
def TimerGetTicks64 : List (Nat × Nat) → Timer → Option (Nat × Timer)
  | [], _ => none
  | (a, b) :: rest, t =>
    let sampledTimerOverflowCounter := t.timerOverflowCounter
    let t1 := clockSteps a t
    let dword0 := t1.TMR4 % 2 ^ 32 -- with dword1 = 0 this is ticks64.value
    let t2 := clockSteps b t1
    if sampledTimerOverflowCounter % 2 ^ 32 ≠ t2.timerOverflowCounter % 2 ^ 32 then
      TimerGetTicks64 rest t2
    else
      some ((dword0 + sampledTimerOverflowCounter) % 2 ^ 64, t2)

/-- The loop of `TimerDelay`.  Each pass takes one entry `(gap, sched)`: `gap` clock
periods elapse before `TimerGetTicks64` is called, and `sched` is the list of pairs
for that call.  The result is the last `newTicks.value` with the state of the tick
source; `none` when the entries end while the loop is still waiting. -/
def TimerDelayLoop (milliseconds previousTicks : Nat) :
    List (Nat × List (Nat × Nat)) → Timer → Option (Nat × Timer)
  | [], _ => none
  | (gap, sched) :: rest, t =>
    match TimerGetTicks64 sched (clockSteps gap t) with
    | none => none
    | some (newTicks, t1) =>
      if sub64 newTicks previousTicks
          < (milliseconds * (TIMER_TICKS_PER_SECOND / 1000)) % 2 ^ 32 then
        TimerDelayLoop milliseconds previousTicks rest t1
      else
        some (newTicks, t1)

/-- `TimerDelay`.  The result is `previousTicks.value`, the last `newTicks.value`
and the state of the tick source at the return. -/
def TimerDelay (milliseconds : Nat) (first : List (Nat × Nat))
    (rest : List (Nat × List (Nat × Nat))) (t : Timer) : Option (Nat × Nat × Timer) :=
  match TimerGetTicks64 first t with
  | none => none
  | some (previousTicks, t0) =>
    match TimerDelayLoop milliseconds previousTicks rest t0 with
    | none => none
    | some (newTicks, t1) => some (previousTicks, newTicks, t1)

/-- The clock periods that elapse during a call of `TimerGetTicks64` that takes
its passes from the list. -/
def schedClock : List (Nat × Nat) → Nat
  | [] => 0
  | (a, b) :: rest => a + b + schedClock rest

/-- What happens to the tick source in a run: a clock period elapses, or
`TimerGetTicks64` is called, the clock periods that elapse during the call being
given pass by pass; `getTicks64 [(0, 0)]` is a call that completes before the next
clock period. -/
inductive TimerEvent where
  | clock
  | getTicks64 (sched : List (Nat × Nat))
  deriving DecidableEq, Repr

/-- The values returned by the `TimerGetTicks64` calls of a run, in order; the run
ends at a call that is still retrying when its list of passes ends. -/
def timerTrace : List TimerEvent → Timer → List Nat
  | [], _ => []
  | TimerEvent.clock :: es, t => timerTrace es (clockStep t)
  | TimerEvent.getTicks64 sched :: es, t =>
    match TimerGetTicks64 sched t with
    | none => []
    | some (ticks64, t1) => ticks64 :: timerTrace es t1

/-- The number of clock periods of a run, those during the calls included. -/
def clockCount : List TimerEvent → Nat
  | [] => 0
  | TimerEvent.clock :: es => clockCount es + 1
  | TimerEvent.getTicks64 sched :: es => clockCount es + schedClock sched

/-- The number of `TimerGetTicks64` calls of a run. -/
def getTicks64Count : List TimerEvent → Nat
  | [] => 0
  | TimerEvent.clock :: es => getTicks64Count es
  | TimerEvent.getTicks64 _ :: es => getTicks64Count es + 1

/-- Every call of the run is allowed a last pass during which no clock period
elapses. -/
def callsComplete : List TimerEvent → Prop
  | [] => True
  | TimerEvent.clock :: es => callsComplete es
  | TimerEvent.getTicks64 sched :: es =>
    (∃ passes, sched = passes ++ [(0, 0)]) ∧ callsComplete es

/-- The tick source after `k` overflow interrupts since boot, the raw counter
reading `c`. -/
def afterOverflows (k c : Nat) : Timer :=
  { (Timer5Interrupt^[k] bootTimer) with TMR4 := c }

/-! ## Send.c -/

/-- An argument of an OSC message. -/
inductive OscArgument where
  | timeTag (value : Nat)
  | bool (value : Bool)
  deriving DecidableEq, Repr

/-- An OSC message as built by `OscMessageInitialise` and `OscMessageAdd...`. -/
structure OscMessage where
  oscAddressPattern : String
  arguments : List OscArgument
  deriving DecidableEq, Repr

/-- An OSC bundle as built by `OscBundleInitialise` and `OscBundleAddContents`. -/
structure OscBundle where
  oscTimeTag : Nat
  contents : List OscMessage
  deriving DecidableEq, Repr

/-- The contents of an OSC packet. -/
inductive OscContents where
  | message (m : OscMessage)
  | bundle (b : OscBundle)
  deriving DecidableEq, Repr

/-- A call into `Ethernet.c` made by `Send.c`, with the packet handed over. -/
inductive Transmission where
  | EthernetBroadcast (contents : OscContents)
  | EthernetUnicast (contents : OscContents)
  deriving DecidableEq, Repr

/-- The file-scope and function-static variables of `Send.c` with the port
latches it drives. -/
structure Send where
  /-- Static `ledTicks` of `SendDoTasks` (`Ticks32`). -/
  ledTicks : Nat
  /-- Static `previousTicks` of `SendDoTasks` (`Ticks32`). -/
  previousTicks : Nat
  /-- The mailbox `externalTriggerTimestamp.value` (`uint64_t`). -/
  externalTriggerTimestamp : Nat
  /-- The variable `externalTriggerState`. -/
  externalTriggerState : Bool
  /-- The latch `LED2_LAT`. -/
  LED2_LAT : Bool
  /-- The latch `LED3_LAT`. -/
  LED3_LAT : Bool
  deriving DecidableEq, Repr

/-- The state of `Send.c` at boot: zero-initialised statics, indicators off. -/
def bootSend : Send :=
  { ledTicks := 0, previousTicks := 0, externalTriggerTimestamp := 0,
    externalTriggerState := false, LED2_LAT := false, LED3_LAT := false }

/-- `BroadcastSynchronisationMessage`; `ticks64` is the value its call of
`TimerGetTicks64` returns. -/
def BroadcastSynchronisationMessage {D : Type} (fp : Ieee754dp D) (sync : Synchronisation D)
    (ticks64 : Nat) : Transmission :=
  Transmission.EthernetBroadcast
    (OscContents.message
      { oscAddressPattern := "/sync"
        arguments := [OscArgument.timeTag (SynchronisationTicksToOscTimeTag fp sync ticks64)] })

/-- `UnicastExternalClockTimestamp`. -/
def UnicastExternalClockTimestamp {D : Type} (fp : Ieee754dp D) (sync : Synchronisation D)
    (s : Send) : Transmission :=
  Transmission.EthernetUnicast
    (OscContents.bundle
      { oscTimeTag := SynchronisationTicksToOscTimeTag fp sync s.externalTriggerTimestamp
        contents :=
          [{ oscAddressPattern := "/external"
             arguments := [OscArgument.bool s.externalTriggerState] }] })

/-- `SendDoTasks`, run without an interrupt in between.  `currentTicks` is the
value returned by `TimerGetTicks32` and `ticks64` the value `TimerGetTicks64`
returns inside `BroadcastSynchronisationMessage`.  The result is the new state with
the calls made into `Ethernet.c`, in order. -/
def SendDoTasks {D : Type} (fp : Ieee754dp D) (sync : Synchronisation D)
    (currentTicks ticks64 : Nat) (s : Send) : Send × List Transmission :=
  -- Broadcast synchronisation message
  let r1 : Send × List Transmission :=
    if sub32 currentTicks s.previousTicks
        ≥ (TIMER_TICKS_PER_SECOND / SYNCHRONISATION_RATE) % 2 ^ 32 then
      let ledTicks := currentTicks
      ({ s with
          previousTicks := currentTicks
          LED3_LAT := true
          ledTicks := if ledTicks = 0 then 1 else ledTicks },
        [BroadcastSynchronisationMessage fp sync ticks64])
    else
      (s, [])
  let r2 : Send × List Transmission :=
    if r1.1.ledTicks ≠ 0 then
      if sub32 currentTicks r1.1.ledTicks ≥ (TIMER_TICKS_PER_SECOND / 10) % 2 ^ 32 then
        ({ r1.1 with LED3_LAT := false, ledTicks := 0 }, r1.2)
      else
        r1
    else
      r1
  -- Unicast external clock edge timestamp
  if r2.1.externalTriggerTimestamp ≠ 0 then
    ({ r2.1 with externalTriggerTimestamp := 0 },
      r2.2 ++ [UnicastExternalClockTimestamp fp sync r2.1])
  else
    r2

/-- `CNInterrupt`; `ticks64` is the value its call of `TimerGetTicks64` returns and
`port` the level read from `EXTERNAL_CLOCK_PORT`. -/
def CNInterrupt (ticks64 : Nat) (port : Bool) (s : Send) : Send :=
  { s with externalTriggerTimestamp := ticks64, LED2_LAT := port }

/-- The packets handed to `EthernetUnicast` among the calls made. -/
def unicasts : List Transmission → List OscContents
  | [] => []
  | Transmission.EthernetUnicast c :: rest => c :: unicasts rest
  | Transmission.EthernetBroadcast _ :: rest => unicasts rest

/-- The packets handed to `EthernetBroadcast` among the calls made. -/
def broadcasts : List Transmission → List OscContents
  | [] => []
  | Transmission.EthernetBroadcast c :: rest => c :: broadcasts rest
  | Transmission.EthernetUnicast _ :: rest => broadcasts rest

/-- `SendDoTasks` with `CNInterrupt` allowed to fire inside the block that unicasts the
external clock edge: `beforeRead` is an edge captured after the test of
`externalTriggerTimestamp` and before `UnicastExternalClockTimestamp` reads it,
`afterRead` an edge captured after that call and before the timestamp is cleared.
Each is the value `TimerGetTicks64` returns in the handler with the level read from
the port, or `none` when no interrupt fires there. -/
def SendDoTasksPreempted {D : Type} (fp : Ieee754dp D) (sync : Synchronisation D)
    (currentTicks ticks64 : Nat) (beforeRead afterRead : Option (Nat × Bool)) (s : Send) :
    Send × List Transmission :=
  -- Broadcast synchronisation message
  let r1 : Send × List Transmission :=
    if sub32 currentTicks s.previousTicks
        ≥ (TIMER_TICKS_PER_SECOND / SYNCHRONISATION_RATE) % 2 ^ 32 then
      let ledTicks := currentTicks
      ({ s with
          previousTicks := currentTicks
          LED3_LAT := true
          ledTicks := if ledTicks = 0 then 1 else ledTicks },
        [BroadcastSynchronisationMessage fp sync ticks64])
    else
      (s, [])
  let r2 : Send × List Transmission :=
    if r1.1.ledTicks ≠ 0 then
      if sub32 currentTicks r1.1.ledTicks ≥ (TIMER_TICKS_PER_SECOND / 10) % 2 ^ 32 then
        ({ r1.1 with LED3_LAT := false, ledTicks := 0 }, r1.2)
      else
        r1
    else
      r1
  -- Unicast external clock edge timestamp
  if r2.1.externalTriggerTimestamp ≠ 0 then
    let s3 : Send :=
      match beforeRead with
      | none => r2.1
      | some (t, port) => CNInterrupt t port r2.1
    let sent := UnicastExternalClockTimestamp fp sync s3
    let s4 : Send :=
      match afterRead with
      | none => s3
      | some (t, port) => CNInterrupt t port s3
    ({ s4 with externalTriggerTimestamp := 0 }, r2.2 ++ [sent])
  else
    r2

/-! ## Ethernet.c -/

/-- The UDP sockets of `Ethernet.c`. -/
inductive UdpSocket where
  | unicastSocket
  | broadcastSocket
  | receiveSocket
  deriving DecidableEq, Repr

/-- A call into the TCP/IP stack that writes to a socket. -/
inductive StackCall where
  | UDPPutArray (socket : UdpSocket) (bytes : List Nat)
  | UDPFlush (socket : UdpSocket)
  deriving DecidableEq, Repr

/-- What `Ethernet.c` sees of the TCP/IP stack, which is not part of the repository:
the link state, the writable byte counts of the two sending sockets, the datagrams
waiting in the receive socket, and the writing calls made so far. -/
structure Ethernet where
  /-- What `MACIsLinked()` returns. -/
  MACIsLinked : Bool
  /-- What `UDPIsPutReady(unicastSocket)` returns. -/
  unicastPutReady : Nat
  /-- What `UDPIsPutReady(broadcastSocket)` returns. -/
  broadcastPutReady : Nat
  /-- Whether `receiveSocket` is open (not `INVALID_UDP_SOCKET`). -/
  receiveSocketOpen : Bool
  /-- The datagrams waiting in the receive socket, oldest first. -/
  received : List (List Nat)
  /-- The `UDPPutArray` and `UDPFlush` calls made, in order. -/
  calls : List StackCall
  deriving DecidableEq, Repr

/-- The stack before the first `EthernetDoTasks`: no link, sockets closed. -/
def bootEthernet : Ethernet :=
  { MACIsLinked := false, unicastPutReady := 0, broadcastPutReady := 0,
    receiveSocketOpen := false, received := [], calls := [] }

/-- `EthernetUnicast`: the return value with the state of the stack. -/
def EthernetUnicast (source : List Nat) (numberOfBytes : Nat) (e : Ethernet) : Nat × Ethernet :=
  if !e.MACIsLinked then
    (1, e) -- error: no link
  else if e.unicastPutReady < numberOfBytes then
    (1, e) -- error: too many bytes to write to socket
  else
    (0, { e with
          calls := e.calls ++
            [StackCall.UDPPutArray UdpSocket.unicastSocket (source.take numberOfBytes),
              StackCall.UDPFlush UdpSocket.unicastSocket] })

/-- `EthernetBroadcast`: the return value with the state of the stack. -/
def EthernetBroadcast (source : List Nat) (numberOfBytes : Nat) (e : Ethernet) :
    Nat × Ethernet :=
  if !e.MACIsLinked then
    (1, e) -- error: no link
  else if e.broadcastPutReady < numberOfBytes then
    (1, e) -- error: too many bytes to write to socket
  else
    (0, { e with
          calls := e.calls ++
            [StackCall.UDPPutArray UdpSocket.broadcastSocket (source.take numberOfBytes),
              StackCall.UDPFlush UdpSocket.broadcastSocket] })

/-- `EthernetGet`: the size returned, the bytes copied to `destination` and the state
of the stack; `UDPIsGetReady` gives the size of the oldest waiting datagram and
`UDPGetArray` copies at most `destinationSize` bytes of it. -/
def EthernetGet (destinationSize : Nat) (e : Ethernet) : Nat × List Nat × Ethernet :=
  match e.received with
  | [] => (0, [], e)
  | datagram :: rest =>
    if datagram.length > 0 then
      ((datagram.take destinationSize).length, datagram.take destinationSize,
        { e with received := rest })
    else
      (0, [], e)

/-- What the network does during one `EthernetDoTasks`: the link state, the datagrams
that arrive for `RECEIVE_PORT`, and the writable byte counts of the sending sockets. -/
structure StackInput where
  linked : Bool
  arrivals : List (List Nat)
  unicastPutReady : Nat
  broadcastPutReady : Nat
  deriving DecidableEq, Repr

/-- `EthernetDoTasks`: `StackTask` takes in what the network did, an open receive
socket queueing the arrivals, then the sockets are opened while the link is up and
closed while it is down. -/
def EthernetDoTasks (i : StackInput) (e : Ethernet) : Ethernet :=
  let e1 : Ethernet :=
    { e with
      MACIsLinked := i.linked
      unicastPutReady := i.unicastPutReady
      broadcastPutReady := i.broadcastPutReady
      received := if e.receiveSocketOpen then e.received ++ i.arrivals else e.received }
  if e1.MACIsLinked then
    { e1 with receiveSocketOpen := true }
  else
    { e1 with receiveSocketOpen := false, received := [] }

/-! ## Send.c over Ethernet.c -/

/-- `BroadcastSynchronisationMessage` with the call of `EthernetBroadcast` carried out;
`encode` stands for `OscPacketInitialiseFromContents`, which is not part of the
repository.  The result is the value `EthernetBroadcast` returns, which the function
discards, with the state of the stack. -/
def BroadcastSynchronisationMessageEthernet {D : Type} (fp : Ieee754dp D)
    (sync : Synchronisation D) (encode : OscContents → List Nat) (ticks64 : Nat)
    (e : Ethernet) : Nat × Ethernet :=
  let oscPacket :=
    encode (OscContents.message
      { oscAddressPattern := "/sync"
        arguments := [OscArgument.timeTag (SynchronisationTicksToOscTimeTag fp sync ticks64)] })
  EthernetBroadcast oscPacket oscPacket.length e

/-- `UnicastExternalClockTimestamp` with the call of `EthernetUnicast` carried out. -/
def UnicastExternalClockTimestampEthernet {D : Type} (fp : Ieee754dp D)
    (sync : Synchronisation D) (encode : OscContents → List Nat) (s : Send) (e : Ethernet) :
    Nat × Ethernet :=
  let oscPacket :=
    encode (OscContents.bundle
      { oscTimeTag := SynchronisationTicksToOscTimeTag fp sync s.externalTriggerTimestamp
        contents :=
          [{ oscAddressPattern := "/external"
             arguments := [OscArgument.bool s.externalTriggerState] }] })
  EthernetUnicast oscPacket oscPacket.length e

/-- The state of `Send.c`, the state of the stack and the values returned so far by
`EthernetBroadcast` and by `EthernetUnicast`. -/
structure SendEthernet where
  send : Send
  ethernet : Ethernet
  broadcastResults : List Nat
  unicastResults : List Nat
  deriving DecidableEq, Repr

/-- `SendDoTasks` with the calls into `Ethernet.c` carried out on the stack `e`. -/
def SendDoTasksEthernet {D : Type} (fp : Ieee754dp D) (sync : Synchronisation D)
    (encode : OscContents → List Nat) (currentTicks ticks64 : Nat) (s : Send) (e : Ethernet) :
    SendEthernet :=
  -- Broadcast synchronisation message
  let r1 : SendEthernet :=
    if sub32 currentTicks s.previousTicks
        ≥ (TIMER_TICKS_PER_SECOND / SYNCHRONISATION_RATE) % 2 ^ 32 then
      let sent := BroadcastSynchronisationMessageEthernet fp sync encode ticks64 e
      let ledTicks := currentTicks
      { send :=
          { s with
            previousTicks := currentTicks
            LED3_LAT := true
            ledTicks := if ledTicks = 0 then 1 else ledTicks }
        ethernet := sent.2
        broadcastResults := [sent.1]
        unicastResults := [] }
    else
      { send := s, ethernet := e, broadcastResults := [], unicastResults := [] }
  let r2 : SendEthernet :=
    if r1.send.ledTicks ≠ 0 then
      if sub32 currentTicks r1.send.ledTicks ≥ (TIMER_TICKS_PER_SECOND / 10) % 2 ^ 32 then
        { r1 with send := { r1.send with LED3_LAT := false, ledTicks := 0 } }
      else
        r1
    else
      r1
  -- Unicast external clock edge timestamp
  if r2.send.externalTriggerTimestamp ≠ 0 then
    let sent := UnicastExternalClockTimestampEthernet fp sync encode r2.send r2.ethernet
    { r2 with
      send := { r2.send with externalTriggerTimestamp := 0 }
      ethernet := sent.2
      unicastResults := [sent.1] }
  else
    r2

/-! ## MainDemo.c -/

/-- The modules' state that `main` runs on. -/
structure System (D : Type) where
  synchronisation : Synchronisation D
  send : Send
  ethernet : Ethernet

/-- What happens around one pass of the main loop: what the network does, an edge
that `CNInterrupt` captures before `SendDoTasks` runs, and the values
`TimerGetTicks32` and `TimerGetTicks64` return inside `SendDoTasks`. -/
structure LoopInput where
  stack : StackInput
  edge : Option (Nat × Bool)
  currentTicks : Nat
  ticks64 : Nat
  deriving DecidableEq, Repr

/-- The state when `main` enters its loop: the statics are zero-initialised and
`SynchronisationInitialise` has stored the ratios. -/
def bootSystem {D : Type} (fp : Ieee754dp D) (zero : D) : System D :=
  { synchronisation :=
      SynchronisationInitialise fp
        { ticksToOscTimeTag := zero, oscTimeTagToTicks := zero,
          slaveClockOffset := 0, observedMasterClockOffset := 0 }
    send := bootSend
    ethernet := bootEthernet }

/-- One pass of the `while (true)` loop of `main`: `EthernetDoTasks();`
`SendDoTasks();`. -/
def mainLoopPass {D : Type} (fp : Ieee754dp D) (encode : OscContents → List Nat)
    (i : LoopInput) (sys : System D) : System D :=
  let ethernet := EthernetDoTasks i.stack sys.ethernet
  let send :=
    match i.edge with
    | none => sys.send
    | some (t, port) => CNInterrupt t port sys.send
  let r := SendDoTasksEthernet fp sys.synchronisation encode i.currentTicks i.ticks64 send ethernet
  { synchronisation := sys.synchronisation, send := r.send, ethernet := r.ethernet }

/-- The main loop run over a sequence of passes. -/
def mainLoop {D : Type} (fp : Ieee754dp D) (encode : OscContents → List Nat) :
    List LoopInput → System D → System D
  | [], sys => sys
  | i :: rest, sys => mainLoop fp encode rest (mainLoopPass fp encode i sys)

/-! ## A concrete instance of the arithmetic -/

/-- Exact rational arithmetic, a value being a pair numerator, denominator and
the conversion to an integer truncating toward zero.  It instantiates the
floating-point parameter where a concrete run is evaluated. -/
def exactArith : Ieee754dp (Nat × Nat) where
  fulong n := (n, 1)
  tulong q := q.1 / q.2
  mul p q := (p.1 * q.1, p.2 * q.2)
  div p q := (p.1 * q.2, p.2 * q.1)

/-- The state of the module after start up under exact arithmetic: the statics are
zero-initialised and `SynchronisationInitialise` has run. -/
def bootSynchronisation : Synchronisation (Nat × Nat) :=
  SynchronisationInitialise exactArith
    { ticksToOscTimeTag := (0, 0), oscTimeTagToTicks := (0, 0),
      slaveClockOffset := 0, observedMasterClockOffset := 0 }

/-- The synchronisation state once the time tag of tick 80,000,000 has arrived at tick
80,000,001 after boot: the update is ignored for the slave offset and the observed
offset is one tick behind. -/
def observedBehindSynchronisation : Synchronisation (Nat × Nat) :=
  SynchronisationUpdate exactArith bootSynchronisation 4294967295 80000001

/-- The bundle that `UnicastExternalClockTimestamp` would send if it took its time tag
from `SynchronisationTicksToOscTimeTagAsObserved`. -/
def externalBundleAsObserved {D : Type} (fp : Ieee754dp D) (sync : Synchronisation D)
    (s : Send) : OscContents :=
  OscContents.bundle
    { oscTimeTag := SynchronisationTicksToOscTimeTagAsObserved fp sync s.externalTriggerTimestamp
      contents :=
        [{ oscAddressPattern := "/external"
           arguments := [OscArgument.bool s.externalTriggerState] }] }

/-- The position of the leading binary digit of `n`, computed by halving at most `fuel`
times. -/
def floorLog2Fuel : Nat → Nat → Nat
  | 0, _ => 0
  | fuel + 1, n => if n < 2 then 0 else floorLog2Fuel fuel (n / 2) + 1

/-- The position of the leading binary digit of `n`: `2 ^ floorLog2 n ≤ n < 2 ^ (floorLog2 n + 1)`
for a positive `n`. -/
def floorLog2 (n : Nat) : Nat := floorLog2Fuel n n

/-- The binary scaling of the quotient `p / q` ahead of rounding: a pair `(up, down)`, one of
them 0, for which `(p * 2 ^ up) / (q * 2 ^ down)` lies from `2 ^ 52` up to `2 ^ 53`, so that
its integer part has the 53 significant bits of a double. -/
def roundShift (p q : Nat) : Nat × Nat :=
  let a := floorLog2 p
  let b := floorLog2 q
  if 2 ^ 52 * (q * 2 ^ (a - (b + 52))) ≤ p * 2 ^ (b + 52 - a) then
    (b + 52 - a, a - (b + 52))
  else
    (b + 53 - a, a - (b + 53))

/-- The integer nearest to `n / d`, a tie going to the even one. -/
def roundQuotient (n d : Nat) : Nat :=
  let m0 := n / d
  let r := n % d
  if 2 * r < d then m0
  else if d < 2 * r then m0 + 1
  else if m0 % 2 = 0 then m0 else m0 + 1

/-- Modelled from the spec: the rounding of `<ieee754.h>`, which is not part of the
repository.  The spec says that all ratio arithmetic uses double-precision floating
point; the quotient `p / q` is rounded to the nearest value with 53 significant bits, a
tie going to the even significand, and is returned as a pair numerator, denominator.
The exponent is unbounded, which agrees with a double from `2 ^ (-1022)` up to
`2 ^ 1024`. -/
def round53 (p q : Nat) : Nat × Nat :=
  if p = 0 then (0, 1)
  else
    ((roundQuotient (p * 2 ^ (roundShift p q).1) (q * 2 ^ (roundShift p q).2))
        * 2 ^ (roundShift p q).2,
      2 ^ (roundShift p q).1)

/-- Modelled from the spec: `ieee754dp_fulong`, `ieee754dp_tulong`, `ieee754dp_mul` and
`ieee754dp_div` of `<ieee754.h>`, which is not part of the repository.  The spec says that
all ratio arithmetic uses double-precision floating point and that the conversions to an
integer round toward zero: a value is a pair numerator, denominator, the conversion
from an integer, the product and the quotient are the exact result rounded by
`round53`, and the conversion to an integer truncates. -/
def binary64 : Ieee754dp (Nat × Nat) where
  fulong n := round53 n 1
  tulong d := d.1 / d.2
  mul a b := round53 (a.1 * b.1) (a.2 * b.2)
  div a b := round53 (a.1 * b.2) (a.2 * b.1)

/-- The file-scope variables of `Synchronisation.c` at program start: all zero. -/
def startSynchronisation : Synchronisation (Nat × Nat) :=
  { ticksToOscTimeTag := (0, 1), oscTimeTagToTicks := (0, 1),
    slaveClockOffset := 0, observedMasterClockOffset := 0 }

/-- The state of the module after start up under binary64 arithmetic:
`SynchronisationInitialise` has run on the zero-initialised statics. -/
def binary64Synchronisation : Synchronisation (Nat × Nat) :=
  SynchronisationInitialise binary64 startSynchronisation

/-! ## A concrete instance of the packet encoding -/

/-- An OSC string: the characters, a null, and nulls up to a multiple of four bytes. -/
def oscString (str : String) : List Nat :=
  let bytes := str.toList.map Char.toNat ++ [0]
  bytes ++ List.replicate ((4 - bytes.length % 4) % 4) 0

/-- The `n` low bytes of `value`, most significant first. -/
def bigEndian : Nat → Nat → List Nat
  | 0, _ => []
  | n + 1, value => (value / 256 ^ n) % 256 :: bigEndian n value

/-- The type tag character of an argument. -/
def oscTypeTag : OscArgument → Char
  | OscArgument.timeTag _ => 't'
  | OscArgument.bool true => 'T'
  | OscArgument.bool false => 'F'

/-- The argument bytes of an argument. -/
def oscArgumentBytes : OscArgument → List Nat
  | OscArgument.timeTag value => bigEndian 8 value
  | OscArgument.bool _ => []

/-- The bytes of an OSC message. -/
def oscEncodeMessage (m : OscMessage) : List Nat :=
  oscString m.oscAddressPattern
    ++ oscString (String.mk (',' :: m.arguments.map oscTypeTag))
    ++ (m.arguments.map oscArgumentBytes).flatten

/-- Modelled from the spec: `OscPacketInitialiseFromContents` and the Osc99 sources it
calls are missing from the repository, which holds only `OscMessage.h` and
`OscPacket.h`; the encoding is the OSC 1.0 wire format the specification assumes.  It
instantiates the encoding parameter where a concrete run is evaluated. -/
def oscEncode : OscContents → List Nat
  | OscContents.message m => oscEncodeMessage m
  | OscContents.bundle b =>
    oscString "#bundle" ++ bigEndian 8 b.oscTimeTag
      ++ (b.contents.map fun m =>
            bigEndian 4 (oscEncodeMessage m).length ++ oscEncodeMessage m).flatten

/-- The datagram of a `/sync` message whose argument is the time tag of tick
800,000,000. -/
def syncDatagram : List Nat :=
  oscEncode
    (OscContents.message
      { oscAddressPattern := "/sync", arguments := [OscArgument.timeTag 42949672950] })

/-- A pass of the main loop at tick 80,000,000 with the link up, room for 1472 bytes in
both sending sockets and no edge, during which the given datagrams arrive. -/
def linkedPass (arrivals : List (List Nat)) : LoopInput :=
  { stack :=
      { linked := true, arrivals := arrivals, unicastPutReady := 1472,
        broadcastPutReady := 1472 }
    edge := none
    currentTicks := 80000000
    ticks64 := 80000000 }

/-- A stack with the link up and room for 1472 bytes in both sending sockets. -/
def linkedEthernet : Ethernet :=
  { MACIsLinked := true, unicastPutReady := 1472, broadcastPutReady := 1472,
    receiveSocketOpen := true, received := [], calls := [] }

/-- The system after two passes of the main loop from boot under exact arithmetic: the
first brings the link up, during the second `syncDatagram` arrives. -/
def receivedRun : System (Nat × Nat) :=
  mainLoop exactArith oscEncode [linkedPass [], linkedPass [syncDatagram]]
    (bootSystem exactArith (0, 0))

/-- The state of `Send.c` with the last broadcast made at tick 4,214,967,296, that is
80,000,000 ticks before the counter wraps to 0, and the indicator off. -/
def dueAtWrapSend : Send := { bootSend with previousTicks := 4214967296 }

/-- A sequence of `SendDoTasks` calls: each entry gives an edge that `CNInterrupt`
captures before the call, if any, and the values `TimerGetTicks32` and
`TimerGetTicks64` return inside it.  The result is the state of `Send.c` after the last
call. -/
def SendDoTasksRun {D : Type} (fp : Ieee754dp D) (sync : Synchronisation D) :
    List (Option (Nat × Bool) × Nat × Nat) → Send → Send
  | [], s => s
  | (edge, currentTicks, ticks64) :: rest, s =>
    let s1 :=
      match edge with
      | none => s
      | some (t, port) => CNInterrupt t port s
    SendDoTasksRun fp sync rest (SendDoTasks fp sync currentTicks ticks64 s1).1

/-! ## Basic facts -/

theorem sub64_lt (a b : Nat) : sub64 a b < 2 ^ 64 :=
  Nat.mod_lt _ (by norm_num)

theorem sub64_of_le {a b : Nat} (ha : a < 2 ^ 64) (h : b ≤ a) : sub64 a b = a - b := by
  unfold sub64
  omega

theorem sub64_of_lt {a b : Nat} (hb : b < 2 ^ 64) (h : a < b) :
    sub64 a b = a + 2 ^ 64 - b := by
  unfold sub64
  omega

theorem observedMasterClock_lt {D : Type} (fp : Ieee754dp D) (s : Synchronisation D)
    (oscTimeTag : Nat) : observedMasterClock fp s oscTimeTag < 2 ^ 64 :=
  Nat.mod_lt _ (by norm_num)

theorem slowClock_lt {D : Type} (s : Synchronisation D) (timeOfArrival : Nat) :
    slowClock s timeOfArrival < 2 ^ 64 :=
  Nat.mod_lt _ (by norm_num)

theorem THRESHOLD_eq : THRESHOLD = 40000000 := rfl

theorem sub64_eq_emod (a b : Nat) : (sub64 a b : Int) = ((a : Int) - (b : Int)) % 2 ^ 64 := by
  unfold sub64
  push_cast
  omega

theorem add_sub64_cancel (a b : Nat) : (b + sub64 a b) % 2 ^ 64 = a % 2 ^ 64 := by
  unfold sub64
  omega

/-- The slave offset after `SynchronisationUpdate`: kept when the update is ignored,
the observed offset otherwise. -/
theorem SynchronisationUpdate_slaveClockOffset {D : Type} (fp : Ieee754dp D)
    (s : Synchronisation D) (oscTimeTag timeOfArrival : Nat) :
    (SynchronisationUpdate fp s oscTimeTag timeOfArrival).slaveClockOffset
      = if observedMasterClock fp s oscTimeTag < slowClock s timeOfArrival
            ∧ sub64 (slowClock s timeOfArrival) (observedMasterClock fp s oscTimeTag) < THRESHOLD
        then s.slaveClockOffset
        else sub64 (observedMasterClock fp s oscTimeTag) timeOfArrival := by
  unfold SynchronisationUpdate
  by_cases h1 : observedMasterClock fp s oscTimeTag < slowClock s timeOfArrival
  · by_cases h2 :
        sub64 (slowClock s timeOfArrival) (observedMasterClock fp s oscTimeTag) < THRESHOLD
    · simp [h1, h2]
    · simp [h1, h2]
  · simp [h1]

/-! ## Claims on `SynchronisationUpdate` -/

/-- C1: if the observed master clock is at or behind the slow clock by less than
`THRESHOLD` (equality included), `SynchronisationUpdate` leaves `slaveClockOffset`
as it was. -/
theorem SynchronisationUpdate_keeps_offset_within_threshold {D : Type} (fp : Ieee754dp D)
    (s : Synchronisation D) (oscTimeTag timeOfArrival : Nat)
    (hoff : s.slaveClockOffset < 2 ^ 64)
    (hle : observedMasterClock fp s oscTimeTag ≤ slowClock s timeOfArrival)
    (hlt : (slowClock s timeOfArrival : Int) - observedMasterClock fp s oscTimeTag
      < THRESHOLD) :
    (SynchronisationUpdate fp s oscTimeTag timeOfArrival).slaveClockOffset
      = s.slaveClockOffset := by
  rw [SynchronisationUpdate_slaveClockOffset]
  have hom := observedMasterClock_lt fp s oscTimeTag
  have hslow := slowClock_lt s timeOfArrival
  split
  · rfl
  · next hno =>
    rcases Nat.lt_or_ge (observedMasterClock fp s oscTimeTag) (slowClock s timeOfArrival)
      with hlt1 | hge
    · exfalso
      apply hno
      refine ⟨hlt1, ?_⟩
      rw [sub64_of_le hslow hle]
      omega
    · have heq : observedMasterClock fp s oscTimeTag = slowClock s timeOfArrival :=
        Nat.le_antisymm hle hge
      rw [heq]
      unfold slowClock sub64
      omega

/-- C1, the scenario of the specification: from offset 0, the time tag of tick
80,000,000 arriving at tick 80,000,000 leaves the offset 0. -/
theorem SynchronisationUpdate_keeps_offset_within_threshold_witness :
    observedMasterClock exactArith bootSynchronisation 4294967295 = 80000000
      ∧ slowClock bootSynchronisation 80000000 = 80000000
      ∧ bootSynchronisation.slaveClockOffset = 0
      ∧ (SynchronisationUpdate exactArith bootSynchronisation 4294967295
          80000000).slaveClockOffset = bootSynchronisation.slaveClockOffset :=
  ⟨by decide, by decide, by decide,
    SynchronisationUpdate_keeps_offset_within_threshold exactArith bootSynchronisation
      4294967295 80000000 (by decide) (by decide) (by decide)⟩

/-- C2: if the observed master clock is at or ahead of the slow clock, or behind it
by `THRESHOLD` or more, `SynchronisationUpdate` sets `slaveClockOffset` to
`(observedMasterClock - timeOfArrival) mod 2 ^ 64`. -/
theorem SynchronisationUpdate_hard_reset {D : Type} (fp : Ieee754dp D)
    (s : Synchronisation D) (oscTimeTag timeOfArrival : Nat)
    (h : slowClock s timeOfArrival ≤ observedMasterClock fp s oscTimeTag
      ∨ (THRESHOLD : Int)
          ≤ (slowClock s timeOfArrival : Int) - observedMasterClock fp s oscTimeTag) :
    ((SynchronisationUpdate fp s oscTimeTag timeOfArrival).slaveClockOffset : Int)
      = ((observedMasterClock fp s oscTimeTag : Int) - (timeOfArrival : Int)) % 2 ^ 64 := by
  rw [SynchronisationUpdate_slaveClockOffset]
  have hslow := slowClock_lt s timeOfArrival
  split
  · next hyes =>
    exfalso
    obtain ⟨h1, h2⟩ := hyes
    rw [sub64_of_le hslow (Nat.le_of_lt h1)] at h2
    omega
  · exact sub64_eq_emod _ _

/-- C2, the scenario of the specification: from offset 0, the time tag of tick
800,000,000 arriving at tick 80,000,000 sets the offset to 720,000,000. -/
theorem SynchronisationUpdate_hard_reset_witness :
    observedMasterClock exactArith bootSynchronisation 42949672950 = 800000000
      ∧ slowClock bootSynchronisation 80000000 = 80000000
      ∧ ((SynchronisationUpdate exactArith bootSynchronisation 42949672950
          80000000).slaveClockOffset : Int) = 720000000 := by
  refine ⟨by decide, by decide, ?_⟩
  have h := SynchronisationUpdate_hard_reset exactArith bootSynchronisation 42949672950
    80000000 (Or.inl (by decide))
  have hom : observedMasterClock exactArith bootSynchronisation 42949672950 = 800000000 := by
    decide
  rw [h, hom]
  norm_num

/-- C3: after every call of `SynchronisationUpdate`, `observedMasterClockOffset` is
`(observedMasterClock - timeOfArrival) mod 2 ^ 64`, whether the update of the slave
offset was ignored or applied. -/
theorem SynchronisationUpdate_observedMasterClockOffset {D : Type} (fp : Ieee754dp D)
    (s : Synchronisation D) (oscTimeTag timeOfArrival : Nat) :
    ((SynchronisationUpdate fp s oscTimeTag timeOfArrival).observedMasterClockOffset : Int)
      = ((observedMasterClock fp s oscTimeTag : Int) - (timeOfArrival : Int)) % 2 ^ 64 := by
  rw [← sub64_eq_emod]
  unfold SynchronisationUpdate
  by_cases h1 : observedMasterClock fp s oscTimeTag < slowClock s timeOfArrival
  · by_cases h2 :
        sub64 (slowClock s timeOfArrival) (observedMasterClock fp s oscTimeTag) < THRESHOLD
    · simp [h1, h2]
    · simp [h1, h2]
  · simp [h1]

/-- C4: the slave clock at the arrival tick, `(timeOfArrival + slaveClockOffset) mod
2 ^ 64`, is after `SynchronisationUpdate` either what it was, or at or ahead of what it
was, or behind it by at least `THRESHOLD`; it is never behind by an amount `d` with
`0 < d < THRESHOLD`. -/
theorem SynchronisationUpdate_no_small_backward_jump {D : Type} (fp : Ieee754dp D)
    (s : Synchronisation D) (oscTimeTag timeOfArrival : Nat) :
    (slowClock (SynchronisationUpdate fp s oscTimeTag timeOfArrival) timeOfArrival
          = slowClock s timeOfArrival
        ∨ slowClock s timeOfArrival
          ≤ slowClock (SynchronisationUpdate fp s oscTimeTag timeOfArrival) timeOfArrival
        ∨ (THRESHOLD : Int) ≤ (slowClock s timeOfArrival : Int)
          - slowClock (SynchronisationUpdate fp s oscTimeTag timeOfArrival) timeOfArrival)
      ∧ ∀ d : Nat, 0 < d → d < THRESHOLD →
          slowClock (SynchronisationUpdate fp s oscTimeTag timeOfArrival) timeOfArrival + d
            ≠ slowClock s timeOfArrival := by
  have hom := observedMasterClock_lt fp s oscTimeTag
  have hslow := slowClock_lt s timeOfArrival
  have hnew : slowClock (SynchronisationUpdate fp s oscTimeTag timeOfArrival) timeOfArrival
      = if observedMasterClock fp s oscTimeTag < slowClock s timeOfArrival
            ∧ sub64 (slowClock s timeOfArrival) (observedMasterClock fp s oscTimeTag)
              < THRESHOLD
        then slowClock s timeOfArrival
        else observedMasterClock fp s oscTimeTag := by
    conv_lhs => unfold slowClock
    rw [SynchronisationUpdate_slaveClockOffset]
    split
    · rfl
    · rw [add_sub64_cancel, Nat.mod_eq_of_lt hom]
  rw [hnew]
  split
  · exact ⟨Or.inl rfl, fun d hd _ => by omega⟩
  · next hno =>
    rcases Nat.lt_or_ge (observedMasterClock fp s oscTimeTag) (slowClock s timeOfArrival)
      with hlt1 | hge
    · have hfar : ¬ sub64 (slowClock s timeOfArrival) (observedMasterClock fp s oscTimeTag)
          < THRESHOLD := fun hc => hno ⟨hlt1, hc⟩
      rw [sub64_of_le hslow (Nat.le_of_lt hlt1)] at hfar
      exact ⟨Or.inr (Or.inr (by omega)), fun d _ hd => by omega⟩
    · exact ⟨Or.inr (Or.inl hge), fun d hd _ => by omega⟩

/-! ## Facts on the tick source -/

theorem TimerGetTicks64_uninterrupted (rest : List (Nat × Nat)) (t : Timer) :
    TimerGetTicks64 ((0, 0) :: rest) t
      = some ((t.TMR4 % 2 ^ 32 + t.timerOverflowCounter) % 2 ^ 64, t) := by
  simp [TimerGetTicks64, clockSteps]

theorem clockStep_eq (t : Timer) :
    clockStep t
      = if (t.TMR4 + 1) % 2 ^ 32 = 0 then
          { timerOverflowCounter := (t.timerOverflowCounter + 4294967295) % 2 ^ 64,
            TMR4 := (t.TMR4 + 1) % 2 ^ 32 }
        else
          { timerOverflowCounter := t.timerOverflowCounter, TMR4 := (t.TMR4 + 1) % 2 ^ 32 } :=
  rfl

theorem clockStep_TMR4_lt (t : Timer) : (clockStep t).TMR4 < 2 ^ 32 := by
  rw [clockStep_eq]
  by_cases h0 : (t.TMR4 + 1) % 2 ^ 32 = 0
  · rw [if_pos h0]
    simp only
    omega
  · rw [if_neg h0]
    simp only
    omega

/-- Across one clock period the sum of accumulator and counter stays or grows by one. -/
theorem clockStep_sum (t : Timer) (hc : t.TMR4 < 2 ^ 32)
    (hw : t.timerOverflowCounter + t.TMR4 < 2 ^ 64) :
    t.timerOverflowCounter + t.TMR4 ≤ (clockStep t).timerOverflowCounter + (clockStep t).TMR4
      ∧ (clockStep t).timerOverflowCounter + (clockStep t).TMR4
        ≤ t.timerOverflowCounter + t.TMR4 + 1 := by
  rw [clockStep_eq]
  by_cases h0 : (t.TMR4 + 1) % 2 ^ 32 = 0
  · rw [if_pos h0]
    simp only
    omega
  · rw [if_neg h0]
    simp only
    omega

theorem Timer5Interrupt_TMR4 (t : Timer) : (Timer5Interrupt t).TMR4 = t.TMR4 := by
  rw [Timer5Interrupt]

theorem Timer5Interrupt_timerOverflowCounter (t : Timer) :
    (Timer5Interrupt t).timerOverflowCounter = (t.timerOverflowCounter + 4294967295) % 2 ^ 64 := by
  rw [Timer5Interrupt, UINT32_MAX]

theorem Timer5Interrupt_iterate_TMR4 (k : Nat) (t : Timer) :
    (Timer5Interrupt^[k] t).TMR4 = t.TMR4 := by
  induction k generalizing t with
  | zero => rfl
  | succ k ih => rw [Function.iterate_succ_apply, ih, Timer5Interrupt_TMR4]

theorem Timer5Interrupt_iterate_counter (k : Nat) (t : Timer)
    (h : t.timerOverflowCounter + k * 4294967295 < 2 ^ 64) :
    (Timer5Interrupt^[k] t).timerOverflowCounter = t.timerOverflowCounter + k * 4294967295 := by
  induction k generalizing t with
  | zero => rw [Function.iterate_zero, id, Nat.zero_mul, Nat.add_zero]
  | succ k ih =>
    rw [Function.iterate_succ_apply, ih]
    · rw [Timer5Interrupt_timerOverflowCounter]
      omega
    · rw [Timer5Interrupt_timerOverflowCounter]
      omega

theorem Timer5Interrupt_iterate_congr (k : Nat) (t u : Timer)
    (h : t.timerOverflowCounter = u.timerOverflowCounter) :
    (Timer5Interrupt^[k] t).timerOverflowCounter
      = (Timer5Interrupt^[k] u).timerOverflowCounter := by
  induction k generalizing t u with
  | zero => exact h
  | succ k ih =>
    rw [Function.iterate_succ_apply, Function.iterate_succ_apply]
    apply ih
    rw [Timer5Interrupt_timerOverflowCounter, Timer5Interrupt_timerOverflowCounter, h]

theorem clockStep_TMR4 (t : Timer) : (clockStep t).TMR4 = (t.TMR4 + 1) % 2 ^ 32 := by
  rw [clockStep_eq]
  by_cases h0 : (t.TMR4 + 1) % 2 ^ 32 = 0
  · rw [if_pos h0]
  · rw [if_neg h0]

theorem clockStep_timerOverflowCounter (t : Timer) :
    (clockStep t).timerOverflowCounter
      = if (t.TMR4 + 1) % 2 ^ 32 = 0 then (t.timerOverflowCounter + 4294967295) % 2 ^ 64
        else t.timerOverflowCounter := by
  rw [clockStep_eq]
  by_cases h0 : (t.TMR4 + 1) % 2 ^ 32 = 0
  · rw [if_pos h0, if_pos h0]
  · rw [if_neg h0, if_neg h0]

/-- The counter after `n` clock periods has advanced modulo `2 ^ 32`. -/
theorem clockSteps_TMR4 (n : Nat) :
    ∀ t : Timer, t.TMR4 < 2 ^ 32 → (clockSteps n t).TMR4 = (t.TMR4 + n) % 2 ^ 32 := by
  induction n with
  | zero =>
    intro t hc
    rw [clockSteps]
    omega
  | succ n ih =>
    intro t hc
    rw [clockSteps, ih _ (clockStep_TMR4_lt t), clockStep_TMR4]
    omega

/-- The accumulator after `n` clock periods: `Timer5Interrupt` has run once for each
wrap of the counter. -/
theorem clockSteps_timerOverflowCounter (n : Nat) :
    ∀ t : Timer, t.TMR4 < 2 ^ 32 →
      (clockSteps n t).timerOverflowCounter
        = (Timer5Interrupt^[(t.TMR4 + n) / 2 ^ 32] t).timerOverflowCounter := by
  induction n with
  | zero =>
    intro t hc
    have h1 : (t.TMR4 + 0) / 2 ^ 32 = 0 := by omega
    rw [clockSteps, h1, Function.iterate_zero, id]
  | succ n ih =>
    intro t hc
    rw [clockSteps, ih _ (clockStep_TMR4_lt t), clockStep_TMR4]
    by_cases h0 : (t.TMR4 + 1) % 2 ^ 32 = 0
    · have h1 : (t.TMR4 + (n + 1)) / 2 ^ 32 = n / 2 ^ 32 + 1 := by omega
      have h3 : ((t.TMR4 + 1) % 2 ^ 32 + n) / 2 ^ 32 = n / 2 ^ 32 := by omega
      rw [h1, h3, Function.iterate_succ_apply]
      apply Timer5Interrupt_iterate_congr
      rw [clockStep_timerOverflowCounter, if_pos h0, Timer5Interrupt_timerOverflowCounter]
    · have h3 : ((t.TMR4 + 1) % 2 ^ 32 + n) / 2 ^ 32 = (t.TMR4 + (n + 1)) / 2 ^ 32 := by omega
      rw [h3]
      apply Timer5Interrupt_iterate_congr
      rw [clockStep_timerOverflowCounter, if_neg h0]

theorem clockSteps_TMR4_lt (n : Nat) (t : Timer) (hc : t.TMR4 < 2 ^ 32) :
    (clockSteps n t).TMR4 < 2 ^ 32 := by
  rw [clockSteps_TMR4 n t hc]
  omega

/-- The accumulator after `n` clock periods when it does not wrap. -/
theorem clockSteps_counter_eq (n : Nat) (t : Timer) (hc : t.TMR4 < 2 ^ 32)
    (hw : t.timerOverflowCounter + t.TMR4 + n < 2 ^ 64) :
    (clockSteps n t).timerOverflowCounter
      = t.timerOverflowCounter + (t.TMR4 + n) / 2 ^ 32 * 4294967295 := by
  rw [clockSteps_timerOverflowCounter n t hc]
  apply Timer5Interrupt_iterate_counter
  omega

/-- Across `n` clock periods the sum of accumulator and counter grows by at most `n`
and does not decrease. -/
theorem clockSteps_sum (n : Nat) (t : Timer) (hc : t.TMR4 < 2 ^ 32)
    (hw : t.timerOverflowCounter + t.TMR4 + n < 2 ^ 64) :
    t.timerOverflowCounter + t.TMR4
        ≤ (clockSteps n t).timerOverflowCounter + (clockSteps n t).TMR4
      ∧ (clockSteps n t).timerOverflowCounter + (clockSteps n t).TMR4
        ≤ t.timerOverflowCounter + t.TMR4 + n := by
  rw [clockSteps_counter_eq n t hc hw, clockSteps_TMR4 n t hc]
  omega

theorem TimerGetTicks64_cons (a b : Nat) (rest : List (Nat × Nat)) (t : Timer) :
    TimerGetTicks64 ((a, b) :: rest) t
      = if t.timerOverflowCounter % 2 ^ 32
            ≠ (clockSteps b (clockSteps a t)).timerOverflowCounter % 2 ^ 32 then
          TimerGetTicks64 rest (clockSteps b (clockSteps a t))
        else
          some (((clockSteps a t).TMR4 % 2 ^ 32 + t.timerOverflowCounter) % 2 ^ 64,
            clockSteps b (clockSteps a t)) := by
  rw [TimerGetTicks64]

/-- The arithmetic of the retry test: adding `2 ^ 32 - 1` fewer than `2 ^ 32` times
leaves the low word as it was only if nothing was added. -/
theorem no_overflow_of_low_word_eq (A T a b : Nat) (hT : T < 2 ^ 32)
    (hw : A + T + (a + b) < 2 ^ 64)
    (heq : A % 2 ^ 32
      = (A + (T + a) / 2 ^ 32 * 4294967295
          + ((T + a) % 2 ^ 32 + b) / 2 ^ 32 * 4294967295) % 2 ^ 32) :
    (T + a) / 2 ^ 32 = 0 := by
  omega

/-- When the low words of the two accumulator samples of a pass agree, no overflow
interrupt has run during the pass: the accumulator still has the sampled value when
`TMR4` is read. -/
theorem pass_sample_stable (a b : Nat) (t : Timer) (hc : t.TMR4 < 2 ^ 32)
    (hw : t.timerOverflowCounter + t.TMR4 + (a + b) < 2 ^ 64)
    (heq : t.timerOverflowCounter % 2 ^ 32
      = (clockSteps b (clockSteps a t)).timerOverflowCounter % 2 ^ 32) :
    (clockSteps a t).timerOverflowCounter = t.timerOverflowCounter := by
  have hs := clockSteps_sum a t hc (by omega)
  have h1 := clockSteps_counter_eq a t hc (by omega)
  have hc1 := clockSteps_TMR4_lt a t hc
  have hT1 := clockSteps_TMR4 a t hc
  have h2 := clockSteps_counter_eq b (clockSteps a t) hc1 (by omega)
  rw [h2, h1, hT1] at heq
  have h0 := no_overflow_of_low_word_eq _ _ _ _ hc hw heq
  rw [h1, h0]
  omega

/-- A call of `TimerGetTicks64` that returns gives a value between the sum of
accumulator and counter at its start and that sum at its return. -/
theorem TimerGetTicks64_bounds (sched : List (Nat × Nat)) :
    ∀ (t t1 : Timer) (x : Nat), t.TMR4 < 2 ^ 32 →
      t.timerOverflowCounter + t.TMR4 + schedClock sched < 2 ^ 64 →
      TimerGetTicks64 sched t = some (x, t1) →
      t1.TMR4 < 2 ^ 32
        ∧ t.timerOverflowCounter + t.TMR4 ≤ x
        ∧ x ≤ t1.timerOverflowCounter + t1.TMR4
        ∧ t1.timerOverflowCounter + t1.TMR4
          ≤ t.timerOverflowCounter + t.TMR4 + schedClock sched := by
  induction sched with
  | nil => intro t t1 x _ _ h; simp [TimerGetTicks64] at h
  | cons p rest ih =>
    intro t t1 x hc hw h
    obtain ⟨a, b⟩ := p
    rw [schedClock] at hw
    rw [TimerGetTicks64_cons] at h
    have hc1 := clockSteps_TMR4_lt a t hc
    have hs1 := clockSteps_sum a t hc (by omega)
    have hc2 := clockSteps_TMR4_lt b (clockSteps a t) hc1
    have hs2 := clockSteps_sum b (clockSteps a t) hc1 (by omega)
    by_cases hne : t.timerOverflowCounter % 2 ^ 32
        ≠ (clockSteps b (clockSteps a t)).timerOverflowCounter % 2 ^ 32
    · rw [if_pos hne] at h
      have := ih (clockSteps b (clockSteps a t)) t1 x hc2 (by omega) h
      rw [schedClock]
      omega
    · rw [if_neg hne] at h
      have hst := pass_sample_stable a b t hc (by omega) (not_not.mp hne)
      simp only [Option.some.injEq, Prod.mk.injEq] at h
      obtain ⟨hx, ht1⟩ := h
      subst ht1
      rw [schedClock]
      omega

/-- A call of `TimerGetTicks64` returns at the latest in a pass during which no clock
period elapses. -/
theorem TimerGetTicks64_returns (passes : List (Nat × Nat)) :
    ∀ t : Timer, ∃ r, TimerGetTicks64 (passes ++ [(0, 0)]) t = some r := by
  induction passes with
  | nil => intro t; exact ⟨_, TimerGetTicks64_uninterrupted [] t⟩
  | cons p rest ih =>
    intro t
    obtain ⟨a, b⟩ := p
    rw [List.cons_append, TimerGetTicks64_cons]
    by_cases hne : t.timerOverflowCounter % 2 ^ 32
        ≠ (clockSteps b (clockSteps a t)).timerOverflowCounter % 2 ^ 32
    · rw [if_pos hne]
      exact ih _
    · rw [if_neg hne]
      exact ⟨_, rfl⟩

/-- Every value in the trace of a run is at least the sum of accumulator and counter
at its start. -/
theorem timerTrace_ge (es : List TimerEvent) :
    ∀ t : Timer, t.TMR4 < 2 ^ 32 →
      t.timerOverflowCounter + t.TMR4 + clockCount es < 2 ^ 64 →
      ∀ x ∈ timerTrace es t, t.timerOverflowCounter + t.TMR4 ≤ x := by
  induction es with
  | nil => intro t _ _ x hx; simp [timerTrace] at hx
  | cons e es ih =>
    intro t hc hw x hx
    cases e with
    | clock =>
      rw [timerTrace] at hx
      rw [clockCount] at hw
      have hs := clockStep_sum t hc (by omega)
      have := ih (clockStep t) (clockStep_TMR4_lt t) (by omega) x hx
      omega
    | getTicks64 sched =>
      rw [timerTrace] at hx
      rw [clockCount] at hw
      cases hcall : TimerGetTicks64 sched t with
      | none => rw [hcall] at hx; simp at hx
      | some r =>
        obtain ⟨y, t1⟩ := r
        rw [hcall] at hx
        have hb := TimerGetTicks64_bounds sched t t1 y hc (by omega) hcall
        simp only [List.mem_cons] at hx
        rcases hx with hx | hx
        · omega
        · have := ih t1 hb.1 (by omega) x hx
          omega

theorem timerTrace_pairwise (es : List TimerEvent) :
    ∀ t : Timer, t.TMR4 < 2 ^ 32 →
      t.timerOverflowCounter + t.TMR4 + clockCount es < 2 ^ 64 →
      (timerTrace es t).Pairwise (fun x y => x ≤ y) := by
  induction es with
  | nil => intro t _ _; simp [timerTrace]
  | cons e es ih =>
    intro t hc hw
    cases e with
    | clock =>
      rw [timerTrace]
      rw [clockCount] at hw
      have hs := clockStep_sum t hc (by omega)
      exact ih (clockStep t) (clockStep_TMR4_lt t) (by omega)
    | getTicks64 sched =>
      rw [timerTrace]
      rw [clockCount] at hw
      cases hcall : TimerGetTicks64 sched t with
      | none => simp
      | some r =>
        obtain ⟨y, t1⟩ := r
        have hb := TimerGetTicks64_bounds sched t t1 y hc (by omega) hcall
        simp only [List.pairwise_cons]
        refine ⟨fun x hx => ?_, ih t1 hb.1 (by omega)⟩
        have := timerTrace_ge es t1 hb.1 (by omega) x hx
        omega

theorem timerTrace_length (es : List TimerEvent) :
    ∀ t : Timer, callsComplete es → (timerTrace es t).length = getTicks64Count es := by
  induction es with
  | nil => intro t _; rfl
  | cons e es ih =>
    intro t hcomp
    cases e with
    | clock =>
      rw [timerTrace, getTicks64Count]
      exact ih _ hcomp
    | getTicks64 sched =>
      obtain ⟨⟨passes, hp⟩, hrest⟩ := hcomp
      obtain ⟨r, hr⟩ := TimerGetTicks64_returns passes t
      rw [timerTrace, getTicks64Count, hp, hr]
      simp only [List.length_cons]
      rw [ih _ hrest]

theorem TimerGetTicks64_afterOverflows (k c : Nat) (hc : c < 2 ^ 32)
    (hw : k * 4294967295 + c < 2 ^ 64) :
    TimerGetTicks64 [(0, 0)] (afterOverflows k c)
      = some (k * 4294967295 + c, afterOverflows k c) := by
  rw [TimerGetTicks64_uninterrupted]
  have h1 : (afterOverflows k c).TMR4 = c := by rw [afterOverflows]
  have h2 : (afterOverflows k c).timerOverflowCounter
      = (Timer5Interrupt^[k] bootTimer).timerOverflowCounter := by rw [afterOverflows]
  have h3 : bootTimer.timerOverflowCounter = 0 := rfl
  rw [h1, h2, Timer5Interrupt_iterate_counter k bootTimer (by rw [h3]; omega), h3]
  have h4 : (c % 2 ^ 32 + (0 + k * 4294967295)) % 2 ^ 64 = k * 4294967295 + c := by omega
  rw [h4]

/-- With no wrap of the counter in between, a delay whose tick count has elapsed at
the first pass of the loop returns there. -/
theorem TimerDelay_returns (milliseconds g : Nat) (t : Timer) (hc : t.TMR4 + g < 2 ^ 32)
    (hw : t.timerOverflowCounter + t.TMR4 + g < 2 ^ 64)
    (hg : (milliseconds * 80000) % 2 ^ 32 ≤ g) :
    TimerDelay milliseconds [(0, 0)] [(g, [(0, 0)])] t
      = some (t.timerOverflowCounter + t.TMR4, t.timerOverflowCounter + t.TMR4 + g,
          clockSteps g t) := by
  have h1 : (clockSteps g t).TMR4 = t.TMR4 + g := by
    rw [clockSteps_TMR4 g t (by omega)]
    omega
  have h2 : (clockSteps g t).timerOverflowCounter = t.timerOverflowCounter := by
    have h0 : (t.TMR4 + g) / 2 ^ 32 = 0 := by omega
    rw [clockSteps_timerOverflowCounter g t (by omega), h0, Function.iterate_zero, id]
  have h3 : (t.TMR4 % 2 ^ 32 + t.timerOverflowCounter) % 2 ^ 64
      = t.timerOverflowCounter + t.TMR4 := by omega
  have h4 : ((t.TMR4 + g) % 2 ^ 32 + t.timerOverflowCounter) % 2 ^ 64
      = t.timerOverflowCounter + t.TMR4 + g := by omega
  have h5 : ¬ sub64 (t.timerOverflowCounter + t.TMR4 + g) (t.timerOverflowCounter + t.TMR4)
      < (milliseconds * (TIMER_TICKS_PER_SECOND / 1000)) % 2 ^ 32 := by
    have h6 : TIMER_TICKS_PER_SECOND / 1000 = 80000 := rfl
    rw [h6, sub64_of_le (by omega) (by omega)]
    omega
  rw [TimerDelay, TimerGetTicks64_uninterrupted]
  simp only [TimerDelayLoop, TimerGetTicks64_uninterrupted, h1, h2, h3, h4, if_neg h5]

/-! ## Claims on the tick source -/

/-- C5: in every run of clock periods interleaved with `TimerGetTicks64` calls in
which the 64-bit value does not wrap, the values returned by the calls are
non-decreasing, whether or not clock periods and overflow interrupts fall inside the
calls; and every call that is allowed a pass without a clock period returns. -/
theorem TimerGetTicks64_non_decreasing (es : List TimerEvent) (t : Timer)
    (hc : t.TMR4 < 2 ^ 32)
    (hw : t.timerOverflowCounter + t.TMR4 + clockCount es < 2 ^ 64) :
    (timerTrace es t).Pairwise (fun x y => x ≤ y)
      ∧ (callsComplete es → (timerTrace es t).length = getTicks64Count es) :=
  ⟨timerTrace_pairwise es t hc hw, timerTrace_length es t⟩

/-- C5 across a wrap of the counter: the value read just before the wrap is read again
by a call during whose first pass the counter wraps, which retries, and the count goes
on after one more clock period. -/
theorem TimerGetTicks64_non_decreasing_witness :
    timerTrace
        [TimerEvent.getTicks64 [(0, 0)], TimerEvent.getTicks64 [(1, 0), (0, 0)],
          TimerEvent.clock, TimerEvent.getTicks64 [(0, 0)]]
        { timerOverflowCounter := 0, TMR4 := 4294967295 }
        = [4294967295, 4294967295, 4294967296]
      ∧ (timerTrace
          [TimerEvent.getTicks64 [(0, 0)], TimerEvent.getTicks64 [(1, 0), (0, 0)],
            TimerEvent.clock, TimerEvent.getTicks64 [(0, 0)]]
          { timerOverflowCounter := 0, TMR4 := 4294967295 }).Pairwise (fun x y => x ≤ y) :=
  ⟨by decide,
    (TimerGetTicks64_non_decreasing
      [TimerEvent.getTicks64 [(0, 0)], TimerEvent.getTicks64 [(1, 0), (0, 0)],
        TimerEvent.clock, TimerEvent.getTicks64 [(0, 0)]]
      { timerOverflowCounter := 0, TMR4 := 4294967295 } (by decide) (by decide)).1⟩

/-- C6 at one overflow: once the counter has wrapped a single time and reads 0,
`2 ^ 32` clock periods after boot, `TimerGetTicks64` returns `2 ^ 32 - 1`, one less
than the `1 * 2 ^ 32 + 0` periods that have elapsed. -/
theorem TimerGetTicks64_after_one_overflow :
    (clockSteps (2 ^ 32) bootTimer).TMR4 = (afterOverflows 1 0).TMR4
      ∧ (clockSteps (2 ^ 32) bootTimer).timerOverflowCounter
          = (afterOverflows 1 0).timerOverflowCounter
      ∧ TimerGetTicks64 [(0, 0)] (afterOverflows 1 0) = some (4294967295, afterOverflows 1 0)
      ∧ 4294967295 ≠ 1 * 2 ^ 32 + 0 := by
  have hb : bootTimer.TMR4 = 0 := rfl
  refine ⟨?_, ?_, ?_, by norm_num⟩
  · rw [clockSteps_TMR4 _ _ (by rw [hb]; norm_num), hb, afterOverflows]
    norm_num
  · have h1 : (bootTimer.TMR4 + 2 ^ 32) / 2 ^ 32 = 1 := by rw [hb]; norm_num
    rw [clockSteps_timerOverflowCounter _ _ (by rw [hb]; norm_num), h1, afterOverflows]
  · exact TimerGetTicks64_afterOverflows 1 0 (by norm_num) (by norm_num)

/-- C7: when `TimerDelay` returns, the last value read from `TimerGetTicks64` is ahead
of the value read at entry by at least `milliseconds * (TIMER_TICKS_PER_SECOND / 1000)`
ticks, the product reduced modulo `2 ^ 32` as the 32-bit multiplication computes it. -/
theorem TimerDelay_returns_after_delay (milliseconds : Nat) (first : List (Nat × Nat))
    (rest : List (Nat × List (Nat × Nat))) (t t1 : Timer) (previousTicks newTicks : Nat)
    (h : TimerDelay milliseconds first rest t = some (previousTicks, newTicks, t1)) :
    (∃ t0, TimerGetTicks64 first t = some (previousTicks, t0))
      ∧ (∃ gap sched t2, (gap, sched) ∈ rest
          ∧ TimerGetTicks64 sched (clockSteps gap t2) = some (newTicks, t1))
      ∧ (milliseconds * 80000) % 2 ^ 32 ≤ sub64 newTicks previousTicks := by
  have hloop : ∀ (l : List (Nat × List (Nat × Nat))) (u : Timer),
      TimerDelayLoop milliseconds previousTicks l u = some (newTicks, t1) →
      (∃ gap sched t2, (gap, sched) ∈ l
          ∧ TimerGetTicks64 sched (clockSteps gap t2) = some (newTicks, t1))
        ∧ (milliseconds * 80000) % 2 ^ 32 ≤ sub64 newTicks previousTicks := by
    intro l
    induction l with
    | nil => intro u hu; simp [TimerDelayLoop] at hu
    | cons e l ih =>
      intro u hu
      obtain ⟨gap, sched⟩ := e
      rw [TimerDelayLoop] at hu
      cases hget : TimerGetTicks64 sched (clockSteps gap u) with
      | none => rw [hget] at hu; simp at hu
      | some r =>
        obtain ⟨n, u1⟩ := r
        rw [hget] at hu
        simp only at hu
        by_cases hlt : sub64 n previousTicks
            < (milliseconds * (TIMER_TICKS_PER_SECOND / 1000)) % 2 ^ 32
        · rw [if_pos hlt] at hu
          obtain ⟨⟨g, sc, t2, hmem, hcall⟩, hle⟩ := ih u1 hu
          exact ⟨⟨g, sc, t2, List.mem_cons_of_mem _ hmem, hcall⟩, hle⟩
        · rw [if_neg hlt] at hu
          have hn : n = newTicks := by
            have := congrArg (fun o => o.map Prod.fst) hu
            simpa using this
          have hu1 : u1 = t1 := by
            have := congrArg (fun o => o.map Prod.snd) hu
            simpa using this
          subst hn
          subst hu1
          have h6 : TIMER_TICKS_PER_SECOND / 1000 = 80000 := rfl
          rw [h6] at hlt
          exact ⟨⟨gap, sched, u, List.mem_cons_self _ _, hget⟩, Nat.le_of_not_lt hlt⟩
  rw [TimerDelay] at h
  cases hfirst : TimerGetTicks64 first t with
  | none => rw [hfirst] at h; simp at h
  | some r =>
    obtain ⟨p, t0⟩ := r
    rw [hfirst] at h
    simp only at h
    cases hl : TimerDelayLoop milliseconds p rest t0 with
    | none => rw [hl] at h; simp at h
    | some q =>
      obtain ⟨n, u1⟩ := q
      rw [hl] at h
      simp only [Option.some.injEq, Prod.mk.injEq] at h
      obtain ⟨hp, hn, hu⟩ := h
      subst hp
      subst hn
      subst hu
      exact ⟨⟨t0, rfl⟩, hloop rest t0 hl⟩

/-- C7 for a delay of one millisecond from boot: the call returns at the reading taken
80,000 clock periods after entry. -/
theorem TimerDelay_returns_after_delay_witness :
    TimerDelay 1 [(0, 0)] [(80000, [(0, 0)])] bootTimer
        = some (0, 80000, clockSteps 80000 bootTimer)
      ∧ (1 * 80000) % 2 ^ 32 ≤ sub64 80000 0 :=
  ⟨TimerDelay_returns 1 80000 bootTimer (by decide) (by decide) (by decide),
    (TimerDelay_returns_after_delay 1 [(0, 0)] [(80000, [(0, 0)])] bootTimer
      (clockSteps 80000 bootTimer) 0 80000
      (TimerDelay_returns 1 80000 bootTimer (by decide) (by decide) (by decide))).2.2⟩

/-! ## Facts on `SendDoTasks` -/

theorem SendDoTasks_unicasts {D : Type} (fp : Ieee754dp D) (sync : Synchronisation D)
    (currentTicks ticks64 : Nat) (s : Send) :
    unicasts (SendDoTasks fp sync currentTicks ticks64 s).2
      = if s.externalTriggerTimestamp ≠ 0 then
          [OscContents.bundle
            { oscTimeTag := SynchronisationTicksToOscTimeTag fp sync s.externalTriggerTimestamp
              contents :=
                [{ oscAddressPattern := "/external"
                   arguments := [OscArgument.bool s.externalTriggerState] }] }]
        else [] := by
  unfold SendDoTasks
  simp only []
  split_ifs <;>
    simp_all [unicasts, BroadcastSynchronisationMessage, UnicastExternalClockTimestamp]

theorem SendDoTasks_externalTriggerTimestamp {D : Type} (fp : Ieee754dp D)
    (sync : Synchronisation D) (currentTicks ticks64 : Nat) (s : Send) :
    (SendDoTasks fp sync currentTicks ticks64 s).1.externalTriggerTimestamp = 0 := by
  unfold SendDoTasks
  simp only []
  split_ifs <;> simp_all

theorem CNInterrupt_externalTriggerState (ticks64 : Nat) (port : Bool) (s : Send) :
    (CNInterrupt ticks64 port s).externalTriggerState = s.externalTriggerState := by
  rw [CNInterrupt]

theorem CNInterrupt_externalTriggerTimestamp (ticks64 : Nat) (port : Bool) (s : Send) :
    (CNInterrupt ticks64 port s).externalTriggerTimestamp = ticks64 := by
  rw [CNInterrupt]

/-! ## Claims on `SendDoTasks` and `CNInterrupt` -/

/-- C8: when `CNInterrupt` captures `T1` and then `T2`, `T1 < T2`, with no `SendDoTasks`
in between, the next `SendDoTasks` hands exactly one bundle to `EthernetUnicast`, its
time tag computed from `T2`, and clears `externalTriggerTimestamp`; the `SendDoTasks`
after that hands none. -/
theorem SendDoTasks_mailbox_overwrite {D : Type} (fp : Ieee754dp D) (sync : Synchronisation D)
    (s : Send) (T1 T2 : Nat) (L1 L2 : Bool) (currentTicks ticks64 laterTicks laterTicks64 : Nat)
    (h12 : T1 < T2) :
    unicasts
        (SendDoTasks fp sync currentTicks ticks64 (CNInterrupt T2 L2 (CNInterrupt T1 L1 s))).2
        = [OscContents.bundle
            { oscTimeTag := SynchronisationTicksToOscTimeTag fp sync T2
              contents :=
                [{ oscAddressPattern := "/external"
                   arguments := [OscArgument.bool s.externalTriggerState] }] }]
      ∧ (SendDoTasks fp sync currentTicks ticks64
          (CNInterrupt T2 L2 (CNInterrupt T1 L1 s))).1.externalTriggerTimestamp = 0
      ∧ unicasts
          (SendDoTasks fp sync laterTicks laterTicks64
            (SendDoTasks fp sync currentTicks ticks64
              (CNInterrupt T2 L2 (CNInterrupt T1 L1 s))).1).2 = [] := by
  have hT2 : T2 ≠ 0 := by omega
  refine ⟨?_, SendDoTasks_externalTriggerTimestamp _ _ _ _ _, ?_⟩
  · rw [SendDoTasks_unicasts, CNInterrupt_externalTriggerTimestamp,
      CNInterrupt_externalTriggerState, CNInterrupt_externalTriggerState, if_pos hT2]
  · rw [SendDoTasks_unicasts, SendDoTasks_externalTriggerTimestamp]
    simp

/-- C8 from boot: edges captured at ticks 1000 and 2000 give one bundle, its time tag
that of tick 2000. -/
theorem SendDoTasks_mailbox_overwrite_witness :
    SynchronisationTicksToOscTimeTag exactArith bootSynchronisation 2000 = 107374
      ∧ unicasts
          (SendDoTasks exactArith bootSynchronisation 2500 2500
            (CNInterrupt 2000 false (CNInterrupt 1000 true bootSend))).2
        = [OscContents.bundle
            { oscTimeTag := SynchronisationTicksToOscTimeTag exactArith bootSynchronisation 2000
              contents :=
                [{ oscAddressPattern := "/external"
                   arguments := [OscArgument.bool bootSend.externalTriggerState] }] }] :=
  ⟨by decide,
    (SendDoTasks_mailbox_overwrite exactArith bootSynchronisation bootSend 1000 2000 true false
      2500 2500 3000 3000 (by decide)).1⟩

/-- C9 as stated fails: with the slave offset 0 and the observed offset one tick behind,
the bundle sent for an edge captured at tick 80,000,000 carries the time tag 4294967295
computed from the slave offset, where `SynchronisationTicksToOscTimeTagAsObserved`
gives 4294967241. -/
theorem SendDoTasks_time_tag_not_as_observed :
    observedBehindSynchronisation.slaveClockOffset = 0
      ∧ observedBehindSynchronisation.observedMasterClockOffset = 18446744073709551615
      ∧ unicasts
          (SendDoTasks exactArith observedBehindSynchronisation 0 0
            (CNInterrupt 80000000 true bootSend)).2
        = [OscContents.bundle
            { oscTimeTag := 4294967295
              contents :=
                [{ oscAddressPattern := "/external"
                   arguments := [OscArgument.bool false] }] }]
      ∧ SynchronisationTicksToOscTimeTagAsObserved exactArith observedBehindSynchronisation
          80000000 = 4294967241
      ∧ unicasts
          (SendDoTasks exactArith observedBehindSynchronisation 0 0
            (CNInterrupt 80000000 true bootSend)).2
        ≠ [externalBundleAsObserved exactArith observedBehindSynchronisation
            (CNInterrupt 80000000 true bootSend)] := by
  decide

/-- C9 as amended: for every pending timestamp and every pair of offsets the bundle
handed to `EthernetUnicast` has the envelope time tag
`SynchronisationTicksToOscTimeTag` of the timestamp, computed from `slaveClockOffset`;
it is the time tag `SynchronisationTicksToOscTimeTagAsObserved` gives whenever the two
offsets are equal. -/
theorem SendDoTasks_unicast_time_tag {D : Type} (fp : Ieee754dp D) (sync : Synchronisation D)
    (currentTicks ticks64 : Nat) (s : Send) (hpending : s.externalTriggerTimestamp ≠ 0) :
    unicasts (SendDoTasks fp sync currentTicks ticks64 s).2
        = [OscContents.bundle
            { oscTimeTag := SynchronisationTicksToOscTimeTag fp sync s.externalTriggerTimestamp
              contents :=
                [{ oscAddressPattern := "/external"
                   arguments := [OscArgument.bool s.externalTriggerState] }] }]
      ∧ (sync.slaveClockOffset = sync.observedMasterClockOffset →
          SynchronisationTicksToOscTimeTag fp sync s.externalTriggerTimestamp
            = SynchronisationTicksToOscTimeTagAsObserved fp sync s.externalTriggerTimestamp) := by
  refine ⟨?_, fun heq => ?_⟩
  · rw [SendDoTasks_unicasts, if_pos hpending]
  · rw [SynchronisationTicksToOscTimeTag, SynchronisationTicksToOscTimeTagAsObserved, heq]

/-- C9 as amended, for an edge captured at tick 80,000,000 with the offsets of
`observedBehindSynchronisation`: the envelope time tag is 4294967295. -/
theorem SendDoTasks_unicast_time_tag_witness :
    SynchronisationTicksToOscTimeTag exactArith observedBehindSynchronisation 80000000
        = 4294967295
      ∧ unicasts
          (SendDoTasks exactArith observedBehindSynchronisation 0 0
            (CNInterrupt 80000000 true bootSend)).2
        = [OscContents.bundle
            { oscTimeTag := SynchronisationTicksToOscTimeTag exactArith
                observedBehindSynchronisation
                (CNInterrupt 80000000 true bootSend).externalTriggerTimestamp
              contents :=
                [{ oscAddressPattern := "/external"
                   arguments :=
                    [OscArgument.bool
                      (CNInterrupt 80000000 true bootSend).externalTriggerState] }] }] :=
  ⟨by decide,
    (SendDoTasks_unicast_time_tag exactArith observedBehindSynchronisation 0 0
      (CNInterrupt 80000000 true bootSend) (by decide)).1⟩

/-- C10 at an edge with the pin high: `CNInterrupt` reads the level `true` into
`LED2_LAT` and leaves `externalTriggerState` as it was, so from boot the `/external`
message handed to `EthernetUnicast` carries the argument `false`. -/
theorem SendDoTasks_external_argument_after_high_edge :
    (CNInterrupt 1 true bootSend).LED2_LAT = true
      ∧ (CNInterrupt 1 true bootSend).externalTriggerState = false
      ∧ unicasts
          (SendDoTasks exactArith bootSynchronisation 0 0 (CNInterrupt 1 true bootSend)).2
        = [OscContents.bundle
            { oscTimeTag := SynchronisationTicksToOscTimeTag exactArith bootSynchronisation 1
              contents :=
                [{ oscAddressPattern := "/external"
                   arguments := [OscArgument.bool false] }] }] := by
  decide

/-! ## Facts on the periodic broadcast -/

theorem sub32_eq_emod (a b : Nat) : (sub32 a b : Int) = ((a : Int) - (b : Int)) % 2 ^ 32 := by
  unfold sub32
  push_cast
  omega

theorem broadcast_period_eq : (TIMER_TICKS_PER_SECOND / SYNCHRONISATION_RATE) % 2 ^ 32 = 80000000 :=
  rfl

theorem indicator_period_eq : (TIMER_TICKS_PER_SECOND / 10) % 2 ^ 32 = 8000000 := rfl

theorem SendDoTasks_broadcasts {D : Type} (fp : Ieee754dp D) (sync : Synchronisation D)
    (currentTicks ticks64 : Nat) (s : Send) :
    broadcasts (SendDoTasks fp sync currentTicks ticks64 s).2
      = if 80000000 ≤ sub32 currentTicks s.previousTicks then
          [OscContents.message
            { oscAddressPattern := "/sync"
              arguments :=
                [OscArgument.timeTag (SynchronisationTicksToOscTimeTag fp sync ticks64)] }]
        else [] := by
  unfold SendDoTasks
  simp only [broadcast_period_eq, indicator_period_eq]
  split_ifs <;> simp_all [broadcasts, BroadcastSynchronisationMessage,
    UnicastExternalClockTimestamp]

theorem SendDoTasks_previousTicks {D : Type} (fp : Ieee754dp D) (sync : Synchronisation D)
    (currentTicks ticks64 : Nat) (s : Send) :
    (SendDoTasks fp sync currentTicks ticks64 s).1.previousTicks
      = if 80000000 ≤ sub32 currentTicks s.previousTicks then currentTicks
        else s.previousTicks := by
  unfold SendDoTasks
  simp only [broadcast_period_eq, indicator_period_eq]
  split_ifs <;> simp_all

/-! ## Claims on the periodic broadcast -/

/-- C11: in one `SendDoTasks` call a synchronisation message is handed to
`EthernetBroadcast` if and only if `(currentTicks - previousTicks) mod 2 ^ 32` is at
least 80,000,000; then `previousTicks` becomes `currentTicks`, otherwise it is
unchanged and nothing is broadcast. -/
theorem SendDoTasks_broadcast_decision {D : Type} (fp : Ieee754dp D) (sync : Synchronisation D)
    (currentTicks ticks64 : Nat) (s : Send) :
    (broadcasts (SendDoTasks fp sync currentTicks ticks64 s).2 ≠ []
        ↔ (80000000 : Int) ≤ ((currentTicks : Int) - (s.previousTicks : Int)) % 2 ^ 32)
      ∧ (SendDoTasks fp sync currentTicks ticks64 s).1.previousTicks
          = (if (80000000 : Int) ≤ ((currentTicks : Int) - (s.previousTicks : Int)) % 2 ^ 32
              then currentTicks else s.previousTicks)
      ∧ (broadcasts (SendDoTasks fp sync currentTicks ticks64 s).2).length
          = (if (80000000 : Int) ≤ ((currentTicks : Int) - (s.previousTicks : Int)) % 2 ^ 32
              then 1 else 0) := by
  rw [SendDoTasks_broadcasts, SendDoTasks_previousTicks, ← sub32_eq_emod]
  by_cases h : 80000000 ≤ sub32 currentTicks s.previousTicks
  · have hi : (80000000 : Int) ≤ (sub32 currentTicks s.previousTicks : Int) := by omega
    simp [h, hi]
  · have hi : ¬ (80000000 : Int) ≤ (sub32 currentTicks s.previousTicks : Int) := by omega
    simp [h, hi]

/-- C16: `EthernetUnicast` and `EthernetBroadcast` each return 0 if and only if the
link is up and the writable byte count of their socket is at least `numberOfBytes`;
when they return non-zero the stack is left as it was, no `UDPPutArray` and no
`UDPFlush` being called, and when they return 0 the bytes are put and flushed once. -/
theorem Ethernet_send_return_code (source : List Nat) (numberOfBytes : Nat) (e : Ethernet) :
    (((EthernetUnicast source numberOfBytes e).1 = 0
          ↔ (e.MACIsLinked = true ∧ numberOfBytes ≤ e.unicastPutReady))
        ∧ ((EthernetUnicast source numberOfBytes e).1 ≠ 0 →
            (EthernetUnicast source numberOfBytes e).2 = e)
        ∧ ((EthernetUnicast source numberOfBytes e).1 = 0 →
            (EthernetUnicast source numberOfBytes e).2.calls
              = e.calls ++
                [StackCall.UDPPutArray UdpSocket.unicastSocket (source.take numberOfBytes),
                  StackCall.UDPFlush UdpSocket.unicastSocket]))
      ∧ (((EthernetBroadcast source numberOfBytes e).1 = 0
          ↔ (e.MACIsLinked = true ∧ numberOfBytes ≤ e.broadcastPutReady))
        ∧ ((EthernetBroadcast source numberOfBytes e).1 ≠ 0 →
            (EthernetBroadcast source numberOfBytes e).2 = e)
        ∧ ((EthernetBroadcast source numberOfBytes e).1 = 0 →
            (EthernetBroadcast source numberOfBytes e).2.calls
              = e.calls ++
                [StackCall.UDPPutArray UdpSocket.broadcastSocket (source.take numberOfBytes),
                  StackCall.UDPFlush UdpSocket.broadcastSocket])) := by
  unfold EthernetUnicast EthernetBroadcast
  refine ⟨?_, ?_⟩
  · cases hl : e.MACIsLinked
    · simp
    · by_cases hr : e.unicastPutReady < numberOfBytes
      · simp [hr]
      · simp [hr, Nat.le_of_not_lt hr]
  · cases hl : e.MACIsLinked
    · simp
    · by_cases hr : e.broadcastPutReady < numberOfBytes
      · simp [hr]
      · simp [hr, Nat.le_of_not_lt hr]

/-- C16 on a `/sync` datagram of 20 bytes: with the link up and room for 1472 bytes
both calls return 0 and put and flush the bytes; with the link down both return 1 and
leave the stack as it was. -/
theorem Ethernet_send_return_code_witness :
    syncDatagram.length = 20
      ∧ (EthernetUnicast syncDatagram 20 linkedEthernet).1 = 0
      ∧ (EthernetBroadcast syncDatagram 20 linkedEthernet).1 = 0
      ∧ (EthernetUnicast syncDatagram 20 bootEthernet).1 = 1
      ∧ (EthernetBroadcast syncDatagram 20 bootEthernet).1 = 1
      ∧ (EthernetUnicast syncDatagram 20 bootEthernet).2 = bootEthernet
      ∧ (EthernetBroadcast syncDatagram 20 bootEthernet).2 = bootEthernet :=
  ⟨by decide, by decide, by decide, by decide, by decide,
    (Ethernet_send_return_code syncDatagram 20 bootEthernet).1.2.1 (by decide),
    (Ethernet_send_return_code syncDatagram 20 bootEthernet).2.2.1 (by decide)⟩

theorem SendDoTasksEthernet_send {D : Type} (fp : Ieee754dp D) (sync : Synchronisation D)
    (encode : OscContents → List Nat) (currentTicks ticks64 : Nat) (s : Send) (e : Ethernet) :
    (SendDoTasksEthernet fp sync encode currentTicks ticks64 s e).send
      = (SendDoTasks fp sync currentTicks ticks64 s).1 := by
  unfold SendDoTasksEthernet SendDoTasks
  simp only [broadcast_period_eq, indicator_period_eq]
  split_ifs <;> simp_all

theorem SendDoTasksEthernet_results {D : Type} (fp : Ieee754dp D) (sync : Synchronisation D)
    (encode : OscContents → List Nat) (currentTicks ticks64 : Nat) (s : Send) (e : Ethernet) :
    (SendDoTasksEthernet fp sync encode currentTicks ticks64 s e).broadcastResults.length ≤ 1
      ∧ (SendDoTasksEthernet fp sync encode currentTicks ticks64 s e).unicastResults.length
        ≤ 1 := by
  unfold SendDoTasksEthernet
  simp only [broadcast_period_eq, indicator_period_eq]
  split_ifs <;> simp_all

/-- C13: the state of `Send.c` on return from `SendDoTasks` is the same whatever the
stack reports to `EthernetBroadcast` and `EthernetUnicast`: the mailbox is empty, the
deadline has been reset to `currentTicks` when the broadcast was due, and
`EthernetBroadcast` and `EthernetUnicast` have each been called at most once. -/
theorem SendDoTasksEthernet_failure_drops {D : Type} (fp : Ieee754dp D)
    (sync : Synchronisation D) (encode : OscContents → List Nat) (currentTicks ticks64 : Nat)
    (s : Send) (e1 e2 : Ethernet) :
    (SendDoTasksEthernet fp sync encode currentTicks ticks64 s e1).send
        = (SendDoTasksEthernet fp sync encode currentTicks ticks64 s e2).send
      ∧ (SendDoTasksEthernet fp sync encode currentTicks ticks64 s e1).send.externalTriggerTimestamp
        = 0
      ∧ ((80000000 : Int) ≤ ((currentTicks : Int) - (s.previousTicks : Int)) % 2 ^ 32 →
          (SendDoTasksEthernet fp sync encode currentTicks ticks64 s e1).send.previousTicks
            = currentTicks)
      ∧ (SendDoTasksEthernet fp sync encode currentTicks ticks64 s e1).broadcastResults.length
        ≤ 1
      ∧ (SendDoTasksEthernet fp sync encode currentTicks ticks64 s e1).unicastResults.length
        ≤ 1 := by
  rw [SendDoTasksEthernet_send, SendDoTasksEthernet_send]
  refine ⟨rfl, SendDoTasks_externalTriggerTimestamp _ _ _ _ _, fun h => ?_,
    SendDoTasksEthernet_results fp sync encode currentTicks ticks64 s e1⟩
  rw [← sub32_eq_emod] at h
  have hn : 80000000 ≤ sub32 currentTicks s.previousTicks := by omega
  rw [SendDoTasks_previousTicks, if_pos hn]

/-- C13 with a broadcast due and an edge pending: over a linked stack both sends
return 0, over a stack without link both return 1, and `Send.c` ends in the same
state, deadline reset and mailbox empty. -/
theorem SendDoTasksEthernet_failure_drops_witness :
    (SendDoTasksEthernet exactArith bootSynchronisation oscEncode 80000000 80000000
        (CNInterrupt 1000 true bootSend) linkedEthernet).broadcastResults = [0]
      ∧ (SendDoTasksEthernet exactArith bootSynchronisation oscEncode 80000000 80000000
        (CNInterrupt 1000 true bootSend) linkedEthernet).unicastResults = [0]
      ∧ (SendDoTasksEthernet exactArith bootSynchronisation oscEncode 80000000 80000000
        (CNInterrupt 1000 true bootSend) bootEthernet).broadcastResults = [1]
      ∧ (SendDoTasksEthernet exactArith bootSynchronisation oscEncode 80000000 80000000
        (CNInterrupt 1000 true bootSend) bootEthernet).unicastResults = [1]
      ∧ (SendDoTasksEthernet exactArith bootSynchronisation oscEncode 80000000 80000000
        (CNInterrupt 1000 true bootSend) bootEthernet).ethernet = bootEthernet
      ∧ (SendDoTasksEthernet exactArith bootSynchronisation oscEncode 80000000 80000000
        (CNInterrupt 1000 true bootSend) bootEthernet).send.previousTicks = 80000000 :=
  ⟨by decide, by decide, by decide, by decide, by decide,
    (SendDoTasksEthernet_failure_drops exactArith bootSynchronisation oscEncode 80000000
      80000000 (CNInterrupt 1000 true bootSend) bootEthernet linkedEthernet).2.2.1
      (by decide)⟩

/-! ## Claims on the main loop -/

theorem mainLoop_synchronisation {D : Type} (fp : Ieee754dp D)
    (encode : OscContents → List Nat) (inputs : List LoopInput) :
    ∀ sys : System D, (mainLoop fp encode inputs sys).synchronisation = sys.synchronisation := by
  induction inputs with
  | nil => intro sys; rfl
  | cons i rest ih =>
    intro sys
    rw [mainLoop, ih]
    rfl

/-- C14 as stated fails: after a pass of the main loop during which a `/sync` datagram
with the time tag of tick 800,000,000 arrives at tick 80,000,000, the datagram is still
waiting in the receive socket, where `EthernetGet` would return its 20 bytes, and both
offsets are 0, where `SynchronisationUpdate` would have set the slave offset to
720,000,000. -/
theorem mainLoop_ignores_received_datagram :
    receivedRun.ethernet.received = [syncDatagram]
      ∧ (EthernetGet 1472 receivedRun.ethernet).1 = 20
      ∧ receivedRun.synchronisation.slaveClockOffset = 0
      ∧ receivedRun.synchronisation.observedMasterClockOffset = 0
      ∧ (SynchronisationUpdate exactArith (bootSystem exactArith (0, 0)).synchronisation
          42949672950 80000000).slaveClockOffset = 720000000
      ∧ receivedRun.synchronisation.slaveClockOffset
        ≠ (SynchronisationUpdate exactArith (bootSystem exactArith (0, 0)).synchronisation
            42949672950 80000000).slaveClockOffset := by
  decide

/-- C14 as amended: the main loop calls only `EthernetDoTasks` and `SendDoTasks`, so
whatever datagrams arrive and whatever else happens during its passes, no
`SynchronisationUpdate` is made: the synchronisation state stays what
`SynchronisationInitialise` left and both offsets stay 0. -/
theorem mainLoop_never_updates {D : Type} (fp : Ieee754dp D) (encode : OscContents → List Nat)
    (zero : D) (inputs : List LoopInput) :
    (mainLoop fp encode inputs (bootSystem fp zero)).synchronisation
        = (bootSystem fp zero).synchronisation
      ∧ (mainLoop fp encode inputs (bootSystem fp zero)).synchronisation.slaveClockOffset = 0
      ∧ (mainLoop fp encode inputs
          (bootSystem fp zero)).synchronisation.observedMasterClockOffset = 0 := by
  rw [mainLoop_synchronisation]
  exact ⟨rfl, rfl, rfl⟩

/-! ## Claims on an edge captured inside `SendDoTasks` -/

theorem SendDoTasksPreempted_none {D : Type} (fp : Ieee754dp D) (sync : Synchronisation D)
    (currentTicks ticks64 : Nat) (s : Send) :
    SendDoTasksPreempted fp sync currentTicks ticks64 none none s
      = SendDoTasks fp sync currentTicks ticks64 s := by
  unfold SendDoTasksPreempted SendDoTasks
  rfl

theorem SendDoTasksPreempted_unicasts {D : Type} (fp : Ieee754dp D) (sync : Synchronisation D)
    (currentTicks ticks64 : Nat) (beforeRead afterRead : Option (Nat × Bool)) (s : Send)
    (hpending : s.externalTriggerTimestamp ≠ 0) :
    unicasts (SendDoTasksPreempted fp sync currentTicks ticks64 beforeRead afterRead s).2
      = [OscContents.bundle
          { oscTimeTag :=
              SynchronisationTicksToOscTimeTag fp sync
                (match beforeRead with
                  | none => s.externalTriggerTimestamp
                  | some (t, _) => t)
            contents :=
              [{ oscAddressPattern := "/external"
                 arguments := [OscArgument.bool s.externalTriggerState] }] }] := by
  unfold SendDoTasksPreempted
  simp only [broadcast_period_eq, indicator_period_eq]
  cases beforeRead with
  | none =>
    split_ifs <;>
      simp_all [unicasts, BroadcastSynchronisationMessage, UnicastExternalClockTimestamp]
  | some p =>
    obtain ⟨t, port⟩ := p
    split_ifs <;>
      simp_all [unicasts, BroadcastSynchronisationMessage, UnicastExternalClockTimestamp,
        CNInterrupt]

theorem SendDoTasksPreempted_externalTriggerTimestamp {D : Type} (fp : Ieee754dp D)
    (sync : Synchronisation D) (currentTicks ticks64 : Nat)
    (beforeRead afterRead : Option (Nat × Bool)) (s : Send) :
    (SendDoTasksPreempted fp sync currentTicks ticks64 beforeRead
      afterRead s).1.externalTriggerTimestamp = 0 := by
  unfold SendDoTasksPreempted
  simp only [broadcast_period_eq, indicator_period_eq]
  split_ifs <;> simp_all

/-- C17 as stated fails: with the edge of tick 1000 pending, `CNInterrupt` captures the
edge of tick 2000 after `UnicastExternalClockTimestamp` has read the timestamp and
before it is cleared; the call dispatches the time tag 53687 of tick 1000 and clears
the mailbox, and the next `SendDoTasks` dispatches nothing, so the time tag 107374 of
tick 2000 is never sent. -/
theorem SendDoTasks_edge_erased_by_clear :
    SynchronisationTicksToOscTimeTag exactArith bootSynchronisation 2000 = 107374
      ∧ unicasts
          (SendDoTasksPreempted exactArith bootSynchronisation 2500 2500 none
            (some (2000, false)) (CNInterrupt 1000 true bootSend)).2
        = [OscContents.bundle
            { oscTimeTag := 53687
              contents :=
                [{ oscAddressPattern := "/external"
                   arguments := [OscArgument.bool false] }] }]
      ∧ (SendDoTasksPreempted exactArith bootSynchronisation 2500 2500 none
          (some (2000, false)) (CNInterrupt 1000 true bootSend)).1.externalTriggerTimestamp = 0
      ∧ unicasts
          (SendDoTasks exactArith bootSynchronisation 3000 3000
            (SendDoTasksPreempted exactArith bootSynchronisation 2500 2500 none
              (some (2000, false)) (CNInterrupt 1000 true bootSend)).1).2 = [] := by
  decide

/-- C17 as amended: the test, the read and the clearing of `externalTriggerTimestamp`
are not atomic with respect to `CNInterrupt`.  With a timestamp pending, an edge
captured after the test and before `UnicastExternalClockTimestamp` reads the timestamp
is the one this call dispatches; an edge captured after that read and before the
clearing is erased by the clearing: this call dispatches the earlier timestamp and the
next `SendDoTasks` dispatches nothing. -/
theorem SendDoTasksPreempted_edge_in_window {D : Type} (fp : Ieee754dp D)
    (sync : Synchronisation D) (currentTicks ticks64 laterTicks laterTicks64 : Nat)
    (T2 : Nat) (L2 : Bool) (s : Send) (hpending : s.externalTriggerTimestamp ≠ 0) :
    unicasts (SendDoTasksPreempted fp sync currentTicks ticks64 (some (T2, L2)) none s).2
        = [OscContents.bundle
            { oscTimeTag := SynchronisationTicksToOscTimeTag fp sync T2
              contents :=
                [{ oscAddressPattern := "/external"
                   arguments := [OscArgument.bool s.externalTriggerState] }] }]
      ∧ unicasts (SendDoTasksPreempted fp sync currentTicks ticks64 none (some (T2, L2)) s).2
        = [OscContents.bundle
            { oscTimeTag := SynchronisationTicksToOscTimeTag fp sync s.externalTriggerTimestamp
              contents :=
                [{ oscAddressPattern := "/external"
                   arguments := [OscArgument.bool s.externalTriggerState] }] }]
      ∧ (SendDoTasksPreempted fp sync currentTicks ticks64 none
          (some (T2, L2)) s).1.externalTriggerTimestamp = 0
      ∧ unicasts
          (SendDoTasks fp sync laterTicks laterTicks64
            (SendDoTasksPreempted fp sync currentTicks ticks64 none (some (T2, L2)) s).1).2
        = [] := by
  refine ⟨?_, ?_, SendDoTasksPreempted_externalTriggerTimestamp _ _ _ _ _ _ _, ?_⟩
  · rw [SendDoTasksPreempted_unicasts _ _ _ _ _ _ _ hpending]
  · rw [SendDoTasksPreempted_unicasts _ _ _ _ _ _ _ hpending]
  · rw [SendDoTasks_unicasts, SendDoTasksPreempted_externalTriggerTimestamp]
    simp

/-- C17 as amended, with the edge of tick 1000 pending and the edge of tick 2000
captured inside the call: captured before the read, the time tag 107374 of tick 2000 is
dispatched. -/
theorem SendDoTasksPreempted_edge_in_window_witness :
    SynchronisationTicksToOscTimeTag exactArith bootSynchronisation 2000 = 107374
      ∧ unicasts
          (SendDoTasksPreempted exactArith bootSynchronisation 2500 2500 (some (2000, false))
            none (CNInterrupt 1000 true bootSend)).2
        = [OscContents.bundle
            { oscTimeTag := SynchronisationTicksToOscTimeTag exactArith bootSynchronisation 2000
              contents :=
                [{ oscAddressPattern := "/external"
                   arguments :=
                    [OscArgument.bool (CNInterrupt 1000 true bootSend).externalTriggerState] }] }] :=
  ⟨by decide,
    (SendDoTasksPreempted_edge_in_window exactArith bootSynchronisation 2500 2500 3000 3000
      2000 false (CNInterrupt 1000 true bootSend) (by decide)).1⟩

/-! ## Claims on the retry loop of `TimerGetTicks64` -/

theorem Timer5Interrupt_iterate_low (k : Nat) :
    ∀ t : Timer, (Timer5Interrupt^[k] t).timerOverflowCounter % 2 ^ 32
      = (t.timerOverflowCounter + k * 4294967295) % 2 ^ 32 := by
  induction k with
  | zero => intro t; rw [Function.iterate_zero, id, Nat.zero_mul, Nat.add_zero]
  | succ k ih =>
    intro t
    rw [Function.iterate_succ_apply, ih, Timer5Interrupt_timerOverflowCounter]
    omega

theorem clockSteps_low (n : Nat) (t : Timer) (hc : t.TMR4 < 2 ^ 32) :
    (clockSteps n t).timerOverflowCounter % 2 ^ 32
      = (t.timerOverflowCounter + (t.TMR4 + n) / 2 ^ 32 * 4294967295) % 2 ^ 32 := by
  rw [clockSteps_timerOverflowCounter n t hc, Timer5Interrupt_iterate_low]

theorem clockSteps_no_overflow (n : Nat) (t : Timer) (hc : t.TMR4 < 2 ^ 32)
    (h0 : (t.TMR4 + n) / 2 ^ 32 = 0) :
    (clockSteps n t).timerOverflowCounter = t.timerOverflowCounter := by
  rw [clockSteps_timerOverflowCounter n t hc, h0, Function.iterate_zero, id]

theorem clockSteps_add (m : Nat) :
    ∀ (n : Nat) (t : Timer), clockSteps (m + n) t = clockSteps n (clockSteps m t) := by
  induction m with
  | zero => intro n t; rw [Nat.zero_add]; rfl
  | succ m ih =>
    intro n t
    have h1 : m + 1 + n = (m + n) + 1 := by omega
    rw [h1, clockSteps, ih, clockSteps]

/-- The arithmetic of the retry test without a bound on the accumulator: with fewer
than `2 ^ 32` wraps of the counter during a pass, equal low words mean no wrap. -/
theorem no_wrap_of_low_word_eq (A A1 A2 T a b : Nat) (hT : T < 2 ^ 32)
    (hfew : (T + (a + b)) / 2 ^ 32 < 2 ^ 32)
    (h1 : A1 % 2 ^ 32 = (A + (T + a) / 2 ^ 32 * 4294967295) % 2 ^ 32)
    (h2 : A2 % 2 ^ 32 = (A1 + ((T + a) % 2 ^ 32 + b) / 2 ^ 32 * 4294967295) % 2 ^ 32)
    (heq : A % 2 ^ 32 = A2 % 2 ^ 32) :
    (T + a) / 2 ^ 32 = 0 ∧ ((T + a) % 2 ^ 32 + b) / 2 ^ 32 = 0 := by
  omega

/-- In a pass of the loop with fewer than `2 ^ 32` wraps of the counter, equal low
words of the two accumulator samples mean that the accumulator has its sampled value
both when `TMR4` is read and when it is read again. -/
theorem pass_samples_equal (a b : Nat) (t : Timer) (hc : t.TMR4 < 2 ^ 32)
    (hfew : (t.TMR4 + (a + b)) / 2 ^ 32 < 2 ^ 32)
    (heq : t.timerOverflowCounter % 2 ^ 32
      = (clockSteps b (clockSteps a t)).timerOverflowCounter % 2 ^ 32) :
    (clockSteps a t).timerOverflowCounter = t.timerOverflowCounter
      ∧ (clockSteps b (clockSteps a t)).timerOverflowCounter = t.timerOverflowCounter := by
  have hc1 := clockSteps_TMR4_lt a t hc
  have hT1 := clockSteps_TMR4 a t hc
  have h1 := clockSteps_low a t hc
  have h2 := clockSteps_low b (clockSteps a t) hc1
  rw [hT1] at h2
  obtain ⟨j1, j2⟩ := no_wrap_of_low_word_eq _ _ _ _ _ _ hc hfew h1 h2 heq
  have e1 := clockSteps_no_overflow a t hc j1
  have e2 := clockSteps_no_overflow b (clockSteps a t) hc1 (by rw [hT1]; exact j2)
  exact ⟨e1, by rw [e2, e1]⟩

/-- C18: `TimerGetTicks64` leaves its loop only in a pass in which the low words of
the accumulator sampled before the counter read and of the accumulator read after it
agree, and returns the sampled accumulator plus the counter reading; when fewer than
`2 ^ 32` wraps of the counter fall between the two samples, the two 64-bit values are
then equal and the accumulator had that value when `TMR4` was read. -/
theorem TimerGetTicks64_exit_samples_equal (sched : List (Nat × Nat)) (t t1 : Timer) (x : Nat)
    (hc : t.TMR4 < 2 ^ 32) (h : TimerGetTicks64 sched t = some (x, t1)) :
    ∃ (n a b : Nat), (a, b) ∈ sched ∧ n + (a + b) ≤ schedClock sched
      ∧ t1 = clockSteps b (clockSteps a (clockSteps n t))
      ∧ (clockSteps n t).timerOverflowCounter % 2 ^ 32 = t1.timerOverflowCounter % 2 ^ 32
      ∧ x = ((clockSteps n t).timerOverflowCounter + (clockSteps a (clockSteps n t)).TMR4)
          % 2 ^ 64
      ∧ (((clockSteps n t).TMR4 + (a + b)) / 2 ^ 32 < 2 ^ 32 →
          (clockSteps n t).timerOverflowCounter = t1.timerOverflowCounter
            ∧ (clockSteps a (clockSteps n t)).timerOverflowCounter
              = (clockSteps n t).timerOverflowCounter) := by
  induction sched generalizing t with
  | nil => simp [TimerGetTicks64] at h
  | cons p rest ih =>
    obtain ⟨a, b⟩ := p
    rw [TimerGetTicks64_cons] at h
    have hc1 := clockSteps_TMR4_lt a t hc
    have hc2 := clockSteps_TMR4_lt b (clockSteps a t) hc1
    by_cases hne : t.timerOverflowCounter % 2 ^ 32
        ≠ (clockSteps b (clockSteps a t)).timerOverflowCounter % 2 ^ 32
    · rw [if_pos hne] at h
      obtain ⟨n, a1, b1, hmem, hle, ht1, hlow, hx, hfull⟩ := ih _ hc2 h
      refine ⟨a + b + n, a1, b1, List.mem_cons_of_mem _ hmem, ?_, ?_, ?_, ?_, ?_⟩
      · rw [schedClock]
        omega
      · rw [clockSteps_add (a + b) n, clockSteps_add a b]
        exact ht1
      · rw [clockSteps_add (a + b) n, clockSteps_add a b]
        exact hlow
      · rw [clockSteps_add (a + b) n, clockSteps_add a b]
        exact hx
      · rw [clockSteps_add (a + b) n, clockSteps_add a b]
        exact hfull
    · rw [if_neg hne] at h
      have heq := not_not.mp hne
      simp only [Option.some.injEq, Prod.mk.injEq] at h
      obtain ⟨hx, ht1⟩ := h
      have h0 : clockSteps 0 t = t := rfl
      refine ⟨0, a, b, List.mem_cons_self _ _, ?_, ?_, ?_, ?_, ?_⟩
      · rw [schedClock]
        omega
      · rw [h0]
        exact ht1.symm
      · rw [h0, ← ht1]
        exact heq
      · rw [h0, ← hx]
        have : (clockSteps a t).TMR4 % 2 ^ 32 = (clockSteps a t).TMR4 := by omega
        rw [this, Nat.add_comm]
      · rw [h0, ← ht1]
        intro hfew
        obtain ⟨e1, e2⟩ := pass_samples_equal a b t hc hfew heq
        exact ⟨e2.symm, e1⟩

/-- C18 at a wrap of the counter during the first pass: the low words differ, the call
retries and returns the accumulator value 4294967295 plus the counter reading 0. -/
theorem TimerGetTicks64_exit_samples_equal_witness :
    TimerGetTicks64 [(1, 0), (0, 0)] { timerOverflowCounter := 0, TMR4 := 4294967295 }
        = some (4294967295, { timerOverflowCounter := 4294967295, TMR4 := 0 })
      ∧ ∃ (n a b : Nat), (a, b) ∈ [(1, 0), (0, 0)]
        ∧ ({ timerOverflowCounter := 4294967295, TMR4 := 0 } : Timer)
            = clockSteps b (clockSteps a
                (clockSteps n { timerOverflowCounter := 0, TMR4 := 4294967295 }))
        ∧ 4294967295
            = ((clockSteps n
                  { timerOverflowCounter := 0, TMR4 := 4294967295 }).timerOverflowCounter
                + (clockSteps a
                    (clockSteps n { timerOverflowCounter := 0, TMR4 := 4294967295 })).TMR4)
              % 2 ^ 64 := by
  refine ⟨by decide, ?_⟩
  obtain ⟨n, a, b, hmem, _, ht1, _, hx, _⟩ :=
    TimerGetTicks64_exit_samples_equal [(1, 0), (0, 0)]
      { timerOverflowCounter := 0, TMR4 := 4294967295 }
      { timerOverflowCounter := 4294967295, TMR4 := 0 } 4294967295 (by decide) (by decide)
  exact ⟨n, a, b, hmem, ht1, hx⟩

/-! ## Claims on the status indicator -/

theorem SendDoTasks_indicator {D : Type} (fp : Ieee754dp D) (sync : Synchronisation D)
    (currentTicks ticks64 : Nat) (s : Send)
    (hdue : 80000000 ≤ sub32 currentTicks s.previousTicks) (hne : currentTicks ≠ 0) :
    (SendDoTasks fp sync currentTicks ticks64 s).1.LED3_LAT = true
      ∧ (SendDoTasks fp sync currentTicks ticks64 s).1.ledTicks = currentTicks := by
  have h0 : sub32 currentTicks currentTicks = 0 := by
    unfold sub32
    omega
  unfold SendDoTasks
  simp only [broadcast_period_eq, indicator_period_eq]
  split_ifs <;> simp_all

theorem SendDoTasks_indicator_stays {D : Type} (fp : Ieee754dp D) (sync : Synchronisation D)
    (currentTicks ticks64 : Nat) (s : Send)
    (hidle : ¬ 80000000 ≤ sub32 currentTicks s.previousTicks) (hled : s.ledTicks ≠ 0) :
    (SendDoTasks fp sync currentTicks ticks64 s).1.LED3_LAT
        = (if 8000000 ≤ sub32 currentTicks s.ledTicks then false else s.LED3_LAT)
      ∧ (SendDoTasks fp sync currentTicks ticks64 s).1.ledTicks
        = (if 8000000 ≤ sub32 currentTicks s.ledTicks then 0 else s.ledTicks) := by
  unfold SendDoTasks
  simp only [broadcast_period_eq, indicator_period_eq, ge_iff_le, hidle, if_false]
  split_ifs <;> simp_all

/-- C19 at `currentTicks` 0: with the broadcast due, `SendDoTasks` broadcasts, sets
`ledTicks` to 1 because 0 stands for an idle indicator, and then finds
`(0 - 1) mod 2 ^ 32` to be at least 8,000,000, so on return `LED3_LAT` is off and
`ledTicks` is 0. -/
theorem SendDoTasks_indicator_off_at_zero :
    sub32 0 dueAtWrapSend.previousTicks = 80000000
      ∧ (broadcasts (SendDoTasks exactArith bootSynchronisation 0 4294967295
          dueAtWrapSend).2).length = 1
      ∧ sub32 0 1 = 4294967295
      ∧ (SendDoTasks exactArith bootSynchronisation 0 4294967295 dueAtWrapSend).1.LED3_LAT
        = false
      ∧ (SendDoTasks exactArith bootSynchronisation 0 4294967295 dueAtWrapSend).1.ledTicks
        = 0 := by
  decide

/-! ## Claims on the offsets under wraparound -/

theorem SynchronisationUpdate_observedMasterClockOffset_eq {D : Type} (fp : Ieee754dp D)
    (s : Synchronisation D) (oscTimeTag timeOfArrival : Nat) :
    (SynchronisationUpdate fp s oscTimeTag timeOfArrival).observedMasterClockOffset
      = sub64 (observedMasterClock fp s oscTimeTag) timeOfArrival := by
  unfold SynchronisationUpdate
  by_cases h1 : observedMasterClock fp s oscTimeTag < slowClock s timeOfArrival
  · by_cases h2 :
        sub64 (slowClock s timeOfArrival) (observedMasterClock fp s oscTimeTag) < THRESHOLD
    · simp [h1, h2]
    · simp [h1, h2]
  · simp [h1]

/-- C20: after every `SynchronisationUpdate`, `timeOfArrival` plus
`observedMasterClockOffset` is the observed master clock modulo `2 ^ 64`, and so is
`timeOfArrival` plus `slaveClockOffset` whenever the update was not ignored, also when
the observed master clock is behind `timeOfArrival`. -/
theorem SynchronisationUpdate_offsets_exact {D : Type} (fp : Ieee754dp D)
    (s : Synchronisation D) (oscTimeTag timeOfArrival : Nat) :
    (timeOfArrival
          + (SynchronisationUpdate fp s oscTimeTag timeOfArrival).observedMasterClockOffset)
        % 2 ^ 64 = observedMasterClock fp s oscTimeTag
      ∧ (¬ (observedMasterClock fp s oscTimeTag < slowClock s timeOfArrival
            ∧ (slowClock s timeOfArrival : Int) - observedMasterClock fp s oscTimeTag
              < THRESHOLD) →
          (timeOfArrival
              + (SynchronisationUpdate fp s oscTimeTag timeOfArrival).slaveClockOffset)
            % 2 ^ 64 = observedMasterClock fp s oscTimeTag) := by
  have hom := observedMasterClock_lt fp s oscTimeTag
  have hslow := slowClock_lt s timeOfArrival
  refine ⟨?_, fun hnot => ?_⟩
  · rw [SynchronisationUpdate_observedMasterClockOffset_eq, add_sub64_cancel,
      Nat.mod_eq_of_lt hom]
  · rw [SynchronisationUpdate_slaveClockOffset]
    split
    · next hyes =>
      exfalso
      apply hnot
      obtain ⟨h1, h2⟩ := hyes
      rw [sub64_of_le hslow (Nat.le_of_lt h1)] at h2
      exact ⟨h1, by omega⟩
    · rw [add_sub64_cancel, Nat.mod_eq_of_lt hom]

/-- C20 with the observed master clock behind the arrival tick: the time tag of tick
80,000,000 arriving at tick 800,000,000 from offset 0 stores the offset
`2 ^ 64 - 720,000,000`, and the arrival tick plus that offset is 80,000,000 modulo
`2 ^ 64`. -/
theorem SynchronisationUpdate_offsets_exact_witness :
    observedMasterClock exactArith bootSynchronisation 4294967295 = 80000000
      ∧ (SynchronisationUpdate exactArith bootSynchronisation 4294967295
          800000000).slaveClockOffset = 18446744072989551616
      ∧ (800000000
            + (SynchronisationUpdate exactArith bootSynchronisation 4294967295
                800000000).slaveClockOffset)
          % 2 ^ 64 = observedMasterClock exactArith bootSynchronisation 4294967295 :=
  ⟨by decide, by decide,
    (SynchronisationUpdate_offsets_exact exactArith bootSynchronisation 4294967295
      800000000).2 (by decide)⟩

/-! ## The conversions under exact arithmetic -/

theorem exactArith_ticksToOscTimeTag (t : Nat) :
    SynchronisationTicksToOscTimeTag exactArith bootSynchronisation t
      = (t % 2 ^ 64 * 4294967295 / 80000000) % 2 ^ 64 := by
  simp [SynchronisationTicksToOscTimeTag, exactArith, bootSynchronisation,
    SynchronisationInitialise, UINT32_MAX, TIMER_TICKS_PER_SECOND, GetSystemClock, SYSCLK,
    SLOW_CLOCK_DRIFT]

theorem exactArith_observedMasterClock (tag : Nat) :
    observedMasterClock exactArith bootSynchronisation tag
      = (tag * 80000000 / 4294967295) % 2 ^ 64 := by
  simp [observedMasterClock, exactArith, bootSynchronisation,
    SynchronisationInitialise, UINT32_MAX, TIMER_TICKS_PER_SECOND, GetSystemClock, SYSCLK,
    SLOW_CLOCK_DRIFT]

/-- Under exact arithmetic, with the slave offset 0 and a time tag that fits 64 bits,
converting ticks to a time tag and back gives the ticks or one tick less. -/
theorem exactArith_round_trip (t : Nat) (ht : t * 4294967295 / 80000000 < 2 ^ 64) :
    observedMasterClock exactArith bootSynchronisation
          (SynchronisationTicksToOscTimeTag exactArith bootSynchronisation t) ≤ t
      ∧ t ≤ observedMasterClock exactArith bootSynchronisation
          (SynchronisationTicksToOscTimeTag exactArith bootSynchronisation t) + 1 := by
  rw [exactArith_ticksToOscTimeTag, exactArith_observedMasterClock]
  have h1 : t < 2 ^ 64 := by omega
  rw [Nat.mod_eq_of_lt h1, Nat.mod_eq_of_lt ht]
  obtain ⟨q, hq⟩ : ∃ q, q = t * 4294967295 / 80000000 := ⟨_, rfl⟩
  rw [← hq]
  have h2 : q * 80000000 / 4294967295 ≤ t := by omega
  rw [Nat.mod_eq_of_lt (by omega)]
  omega

/-! ## Claims on repeating `SynchronisationUpdate` -/

theorem SynchronisationUpdate_oscTimeTagToTicks {D : Type} (fp : Ieee754dp D)
    (s : Synchronisation D) (oscTimeTag timeOfArrival : Nat) :
    (SynchronisationUpdate fp s oscTimeTag timeOfArrival).oscTimeTagToTicks
      = s.oscTimeTagToTicks := by
  unfold SynchronisationUpdate
  by_cases h1 : observedMasterClock fp s oscTimeTag < slowClock s timeOfArrival
  · by_cases h2 :
        sub64 (slowClock s timeOfArrival) (observedMasterClock fp s oscTimeTag) < THRESHOLD
    · simp [h1, h2]
    · simp [h1, h2]
  · simp [h1]

theorem SynchronisationUpdate_observedMasterClock {D : Type} (fp : Ieee754dp D)
    (s : Synchronisation D) (oscTimeTag timeOfArrival tag : Nat) :
    observedMasterClock fp (SynchronisationUpdate fp s oscTimeTag timeOfArrival) tag
      = observedMasterClock fp s tag := by
  rw [observedMasterClock, observedMasterClock, SynchronisationUpdate_oscTimeTagToTicks]

/-- C21: calling `SynchronisationUpdate` a second time with the same time tag and the
same arrival value leaves `slaveClockOffset` and `observedMasterClockOffset` as the
first call left them. -/
theorem SynchronisationUpdate_idempotent {D : Type} (fp : Ieee754dp D)
    (s : Synchronisation D) (oscTimeTag timeOfArrival : Nat) :
    (SynchronisationUpdate fp (SynchronisationUpdate fp s oscTimeTag timeOfArrival)
          oscTimeTag timeOfArrival).slaveClockOffset
        = (SynchronisationUpdate fp s oscTimeTag timeOfArrival).slaveClockOffset
      ∧ (SynchronisationUpdate fp (SynchronisationUpdate fp s oscTimeTag timeOfArrival)
          oscTimeTag timeOfArrival).observedMasterClockOffset
        = (SynchronisationUpdate fp s oscTimeTag timeOfArrival).observedMasterClockOffset := by
  refine ⟨?_, ?_⟩
  · rw [SynchronisationUpdate_slaveClockOffset fp (SynchronisationUpdate fp s oscTimeTag
        timeOfArrival), SynchronisationUpdate_observedMasterClock]
    by_cases hign : observedMasterClock fp s oscTimeTag < slowClock s timeOfArrival
        ∧ sub64 (slowClock s timeOfArrival) (observedMasterClock fp s oscTimeTag) < THRESHOLD
    · have hkeep : (SynchronisationUpdate fp s oscTimeTag timeOfArrival).slaveClockOffset
          = s.slaveClockOffset := by
        rw [SynchronisationUpdate_slaveClockOffset, if_pos hign]
      have hslow : slowClock (SynchronisationUpdate fp s oscTimeTag timeOfArrival) timeOfArrival
          = slowClock s timeOfArrival := by
        rw [slowClock, slowClock, hkeep]
      rw [hslow, if_pos hign]
    · have hset : (SynchronisationUpdate fp s oscTimeTag timeOfArrival).slaveClockOffset
          = sub64 (observedMasterClock fp s oscTimeTag) timeOfArrival := by
        rw [SynchronisationUpdate_slaveClockOffset, if_neg hign]
      split
      · rfl
      · exact hset.symm
  · rw [SynchronisationUpdate_observedMasterClockOffset_eq,
      SynchronisationUpdate_observedMasterClockOffset_eq, SynchronisationUpdate_observedMasterClock]

/-! ## Claims on the indicator over a run -/

theorem SendDoTasks_indicator_invariant {D : Type} (fp : Ieee754dp D)
    (sync : Synchronisation D) (currentTicks ticks64 : Nat) (s : Send)
    (h : s.LED3_LAT = true ↔ s.ledTicks ≠ 0) :
    (SendDoTasks fp sync currentTicks ticks64 s).1.LED3_LAT = true
      ↔ (SendDoTasks fp sync currentTicks ticks64 s).1.ledTicks ≠ 0 := by
  unfold SendDoTasks
  simp only [broadcast_period_eq, indicator_period_eq]
  split_ifs <;> simp_all

theorem CNInterrupt_indicator (ticks64 : Nat) (port : Bool) (s : Send) :
    (CNInterrupt ticks64 port s).LED3_LAT = s.LED3_LAT
      ∧ (CNInterrupt ticks64 port s).ledTicks = s.ledTicks := by
  rw [CNInterrupt]
  exact ⟨rfl, rfl⟩

theorem SendDoTasksRun_indicator {D : Type} (fp : Ieee754dp D) (sync : Synchronisation D)
    (calls : List (Option (Nat × Bool) × Nat × Nat)) :
    ∀ s : Send, (s.LED3_LAT = true ↔ s.ledTicks ≠ 0) →
      ((SendDoTasksRun fp sync calls s).LED3_LAT = true
        ↔ (SendDoTasksRun fp sync calls s).ledTicks ≠ 0) := by
  induction calls with
  | nil => intro s h; exact h
  | cons call rest ih =>
    intro s h
    obtain ⟨edge, currentTicks, ticks64⟩ := call
    simp only [SendDoTasksRun]
    apply ih
    apply SendDoTasks_indicator_invariant
    cases edge with
    | none => exact h
    | some e =>
      obtain ⟨t, port⟩ := e
      have hc := CNInterrupt_indicator t port s
      simp only [hc.1, hc.2]
      exact h

/-- C22: starting from the boot state, after every sequence of `SendDoTasks` calls,
whatever the tick readings and whatever edges `CNInterrupt` captures between the calls,
`LED3_LAT` is on if and only if `ledTicks` is not 0. -/
theorem SendDoTasksRun_indicator_from_boot {D : Type} (fp : Ieee754dp D)
    (sync : Synchronisation D) (calls : List (Option (Nat × Bool) × Nat × Nat)) :
    (SendDoTasksRun fp sync calls bootSend).LED3_LAT = true
      ↔ (SendDoTasksRun fp sync calls bootSend).ledTicks ≠ 0 :=
  SendDoTasksRun_indicator fp sync calls bootSend (by decide)

/-! ## Claims on the narrow and the wide tick view -/

/-- C23: after `k` overflow interrupts since boot and with the raw counter value `c`,
the low 32 bits of the value `TimerGetTicks64` returns are `(c - k) mod 2 ^ 32`, while
`TimerGetTicks32` returns `c`; the two are equal exactly when `k` is a multiple of
`2 ^ 32`. -/
theorem TimerGetTicks64_low_dword (k c : Nat) (hc : c < 2 ^ 32) :
    ∃ x, TimerGetTicks64 [(0, 0)] (afterOverflows k c) = some (x, afterOverflows k c)
      ∧ ((x % 2 ^ 32 : Nat) : Int) = ((c : Int) - (k : Int)) % 2 ^ 32
      ∧ TimerGetTicks32 (afterOverflows k c) = c
      ∧ (x % 2 ^ 32 = TimerGetTicks32 (afterOverflows k c) ↔ k % 2 ^ 32 = 0) := by
  have h1 : (afterOverflows k c).TMR4 = c := by rw [afterOverflows]
  have h2 : (afterOverflows k c).timerOverflowCounter
      = (Timer5Interrupt^[k] bootTimer).timerOverflowCounter := by rw [afterOverflows]
  have h3 : bootTimer.timerOverflowCounter = 0 := rfl
  have hlow := Timer5Interrupt_iterate_low k bootTimer
  rw [h3] at hlow
  refine ⟨_, TimerGetTicks64_uninterrupted [] (afterOverflows k c), ?_, ?_, ?_⟩
  · rw [h1, h2]
    omega
  · rw [TimerGetTicks32, h1]
  · rw [TimerGetTicks32, h1, h2]
    omega

/-- C23 after one overflow with the counter at 5: `TimerGetTicks64` returns 4294967300,
whose low 32 bits are 4, and `TimerGetTicks32` returns 5. -/
theorem TimerGetTicks64_low_dword_witness :
    TimerGetTicks64 [(0, 0)] (afterOverflows 1 5) = some (4294967300, afterOverflows 1 5)
      ∧ 4294967300 % 2 ^ 32 = 4
      ∧ ∃ x, TimerGetTicks64 [(0, 0)] (afterOverflows 1 5) = some (x, afterOverflows 1 5)
        ∧ ((x % 2 ^ 32 : Nat) : Int) = ((5 : Int) - (1 : Int)) % 2 ^ 32
        ∧ TimerGetTicks32 (afterOverflows 1 5) = 5 := by
  refine ⟨by decide, by decide, ?_⟩
  obtain ⟨x, hx, hlow, h32, _⟩ := TimerGetTicks64_low_dword 1 5 (by decide)
  exact ⟨x, hx, by exact_mod_cast hlow, h32⟩

/-! ## Facts on binary64 arithmetic -/

theorem floorLog2Fuel_spec (fuel : Nat) :
    ∀ n : Nat, n ≤ fuel → 0 < n →
      2 ^ floorLog2Fuel fuel n ≤ n ∧ n < 2 ^ (floorLog2Fuel fuel n + 1) := by
  induction fuel with
  | zero => intro n h1 h2; omega
  | succ fuel ih =>
    intro n h1 h2
    rw [floorLog2Fuel]
    by_cases h : n < 2
    · rw [if_pos h]
      have : n = 1 := by omega
      subst this
      norm_num
    · rw [if_neg h]
      obtain ⟨ha, hb⟩ := ih (n / 2) (by omega) (by omega)
      have e1 : 2 ^ (floorLog2Fuel fuel (n / 2) + 1) = 2 * 2 ^ floorLog2Fuel fuel (n / 2) := by
        rw [pow_succ]; ring
      have e2 : 2 ^ (floorLog2Fuel fuel (n / 2) + 1 + 1)
          = 2 * 2 ^ (floorLog2Fuel fuel (n / 2) + 1) := by
        rw [pow_succ]; ring
      rw [e2, e1]
      rw [e1] at hb
      omega

theorem floorLog2_spec (n : Nat) (h : 0 < n) :
    2 ^ floorLog2 n ≤ n ∧ n < 2 ^ (floorLog2 n + 1) :=
  floorLog2Fuel_spec n n (Nat.le_refl n) h

theorem roundShift_lower (p q : Nat) (hp : 0 < p) (hq : 0 < q) :
    2 ^ 52 * (q * 2 ^ (roundShift p q).2) ≤ p * 2 ^ (roundShift p q).1 := by
  unfold roundShift
  simp only
  split
  · next h => exact h
  · obtain ⟨ha, _⟩ := floorLog2_spec p hp
    obtain ⟨_, hb⟩ := floorLog2_spec q hq
    generalize floorLog2 p = a at *
    generalize floorLog2 q = b at *
    rcases Nat.le_total a (b + 53) with hab | hab
    · have e0 : a - (b + 53) = 0 := by omega
      have e1 : 2 ^ a * 2 ^ (b + 53 - a) = 2 ^ 52 * 2 ^ (b + 1) := by
        rw [← pow_add, ← pow_add]
        congr 1
        omega
      rw [e0, pow_zero, Nat.mul_one]
      calc 2 ^ 52 * q ≤ 2 ^ 52 * 2 ^ (b + 1) := Nat.mul_le_mul_left _ (Nat.le_of_lt hb)
        _ = 2 ^ a * 2 ^ (b + 53 - a) := e1.symm
        _ ≤ p * 2 ^ (b + 53 - a) := Nat.mul_le_mul_right _ ha
    · have e0 : b + 53 - a = 0 := by omega
      have e1 : 2 ^ 52 * (2 ^ (b + 1) * 2 ^ (a - (b + 53))) = 2 ^ a := by
        rw [← pow_add, ← pow_add]
        congr 1
        omega
      rw [e0, pow_zero, Nat.mul_one]
      calc 2 ^ 52 * (q * 2 ^ (a - (b + 53)))
          ≤ 2 ^ 52 * (2 ^ (b + 1) * 2 ^ (a - (b + 53))) :=
            Nat.mul_le_mul_left _ (Nat.mul_le_mul_right _ (Nat.le_of_lt hb))
        _ = 2 ^ a := e1
        _ ≤ p := ha

theorem roundQuotient_near (n d : Nat) (hd : 0 < d) :
    2 * (roundQuotient n d * d) ≤ 2 * n + d ∧ 2 * n ≤ 2 * (roundQuotient n d * d) + d := by
  have h1 := Nat.div_add_mod n d
  have h2 := Nat.mod_lt n hd
  unfold roundQuotient
  simp only
  generalize n / d = m0 at *
  generalize n % d = r at *
  have e : (m0 + 1) * d = d * m0 + d := by ring
  have e' : m0 * d = d * m0 := by ring
  split_ifs <;> (try rw [e]) <;> (try rw [e']) <;> omega

theorem round53_den_pos (p q : Nat) : 0 < (round53 p q).2 := by
  unfold round53
  split
  · exact Nat.one_pos
  · exact Nat.pow_pos (by decide)

theorem roundShift_zero (p q : Nat) : (roundShift p q).1 = 0 ∨ (roundShift p q).2 = 0 := by
  unfold roundShift
  simp only
  split <;> simp only <;> omega

theorem roundShift_upper (p q : Nat) (hp : 0 < p) (hq : 0 < q) :
    p * 2 ^ (roundShift p q).1 < 2 ^ 53 * (q * 2 ^ (roundShift p q).2) := by
  obtain ⟨_, ha⟩ := floorLog2_spec p hp
  obtain ⟨hb, _⟩ := floorLog2_spec q hq
  unfold roundShift
  simp only
  generalize floorLog2 p = a at *
  generalize floorLog2 q = b at *
  split
  · rcases Nat.le_total a (b + 52) with hab | hab
    · have e0 : a - (b + 52) = 0 := by omega
      have e1 : 2 ^ (a + 1) * 2 ^ (b + 52 - a) = 2 ^ 53 * 2 ^ b := by
        rw [← pow_add, ← pow_add]
        congr 1
        omega
      rw [e0, pow_zero, Nat.mul_one]
      calc p * 2 ^ (b + 52 - a) < 2 ^ (a + 1) * 2 ^ (b + 52 - a) :=
            Nat.mul_lt_mul_of_pos_right ha (by positivity)
        _ = 2 ^ 53 * 2 ^ b := e1
        _ ≤ 2 ^ 53 * q := Nat.mul_le_mul_left _ hb
    · have e0 : b + 52 - a = 0 := by omega
      have e1 : 2 ^ 53 * (2 ^ b * 2 ^ (a - (b + 52))) = 2 ^ (a + 1) := by
        rw [← pow_add, ← pow_add]
        congr 1
        omega
      rw [e0, pow_zero, Nat.mul_one]
      calc p < 2 ^ (a + 1) := ha
        _ = 2 ^ 53 * (2 ^ b * 2 ^ (a - (b + 52))) := e1.symm
        _ ≤ 2 ^ 53 * (q * 2 ^ (a - (b + 52))) :=
            Nat.mul_le_mul_left _ (Nat.mul_le_mul_right _ hb)
  · next h =>
    rw [Nat.not_le] at h
    show p * 2 ^ (b + 53 - a) < 2 ^ 53 * (q * 2 ^ (a - (b + 53)))
    rcases Nat.le_total a (b + 52) with hab | hab
    · have e0 : a - (b + 52) = 0 := by omega
      have e0' : a - (b + 53) = 0 := by omega
      have e1 : 2 ^ (b + 53 - a) = 2 * 2 ^ (b + 52 - a) := by
        rw [← pow_succ']
        congr 1
        omega
      have e2 : p * (2 * 2 ^ (b + 52 - a)) = 2 * (p * 2 ^ (b + 52 - a)) := by ring
      rw [e0, pow_zero, Nat.mul_one] at h
      rw [e0', pow_zero, Nat.mul_one, e1, e2]
      generalize p * 2 ^ (b + 52 - a) = P at *
      omega
    · rcases Nat.eq_or_lt_of_le hab with hab' | hab'
      · have e0 : a - (b + 52) = 0 := by omega
        have e0' : a - (b + 53) = 0 := by omega
        have e3 : b + 52 - a = 0 := by omega
        have e4 : b + 53 - a = 1 := by omega
        rw [e0, e3, pow_zero, Nat.mul_one, Nat.mul_one] at h
        rw [e0', e4, pow_zero, Nat.mul_one]
        omega
      · have e0 : b + 52 - a = 0 := by omega
        have e0' : b + 53 - a = 0 := by omega
        have e1 : 2 ^ (a - (b + 52)) = 2 * 2 ^ (a - (b + 53)) := by
          rw [← pow_succ']
          congr 1
          omega
        rw [e0, pow_zero, Nat.mul_one, e1] at h
        rw [e0', pow_zero, Nat.mul_one]
        have e2 : 2 ^ 52 * (q * (2 * 2 ^ (a - (b + 53)))) = 2 ^ 53 * (q * 2 ^ (a - (b + 53))) := by
          ring
        rw [e2] at h
        exact h

theorem roundQuotient_bounds (P D : Nat) (hD : 0 < D) (hL : 2 ^ 52 * D ≤ P)
    (hU : P < 2 ^ 53 * D) : 2 ^ 52 ≤ roundQuotient P D ∧ roundQuotient P D ≤ 2 ^ 53 := by
  obtain ⟨h1, h2⟩ := roundQuotient_near P D hD
  generalize roundQuotient P D = m at *
  constructor
  · by_contra hm
    rw [Nat.not_le] at hm
    have h3 : m * D ≤ (2 ^ 52 - 1) * D := Nat.mul_le_mul_right D (by omega)
    generalize m * D = M at *
    omega
  · by_contra hm
    rw [Nat.not_le] at hm
    have h3 : (2 ^ 53 + 1) * D ≤ m * D := Nat.mul_le_mul_right D (by omega)
    generalize m * D = M at *
    omega

theorem roundQuotient_mul (c d : Nat) (hd : 0 < d) : roundQuotient (c * d) d = c := by
  unfold roundQuotient
  simp only
  rw [Nat.mul_mod_left, Nat.mul_div_cancel c hd]
  simp [hd]


theorem round53_spacing (p q e : Nat) (hp : 0 < p) (hq : 0 < q) (h : p < 2 ^ e * q) :
    2 ^ 53 * 2 ^ (roundShift p q).2 ≤ 2 ^ e * 2 ^ (roundShift p q).1 := by
  have hL := roundShift_lower p q hp hq
  generalize (roundShift p q).1 = up at *
  generalize (roundShift p q).2 = down at *
  have h1 : 2 ^ (52 + down) * q < 2 ^ (e + up) * q := by
    calc 2 ^ (52 + down) * q = 2 ^ 52 * (q * 2 ^ down) := by rw [pow_add]; ring
      _ ≤ p * 2 ^ up := hL
      _ < 2 ^ e * q * 2 ^ up := Nat.mul_lt_mul_of_pos_right h (by positivity)
      _ = 2 ^ (e + up) * q := by rw [pow_add]; ring
  have h2 : 2 ^ (52 + down) < 2 ^ (e + up) := Nat.lt_of_mul_lt_mul_right h1
  have h3 : 52 + down < e + up := (Nat.pow_lt_pow_iff_right (by decide)).1 h2
  calc 2 ^ 53 * 2 ^ down = 2 ^ (53 + down) := by rw [pow_add]
    _ ≤ 2 ^ (e + up) := Nat.pow_le_pow_right (by decide) (by omega)
    _ = 2 ^ e * 2 ^ up := by rw [pow_add]

theorem round53_integral (p q : Nat) (hq : 0 < q) (h : 2 ^ 52 * q ≤ p) :
    (round53 p q).2 = 1 := by
  have hp : 0 < p := lt_of_lt_of_le (Nat.mul_pos (by positivity) hq) h
  have hU := roundShift_upper p q hp hq
  have hZ := roundShift_zero p q
  unfold round53
  rw [if_neg (Nat.pos_iff_ne_zero.1 hp)]
  show 2 ^ (roundShift p q).1 = 1
  generalize (roundShift p q).1 = up at *
  generalize (roundShift p q).2 = down at *
  have h1 : 2 ^ (52 + up) * q < 2 ^ (53 + down) * q := by
    calc 2 ^ (52 + up) * q = 2 ^ 52 * q * 2 ^ up := by rw [pow_add]; ring
      _ ≤ p * 2 ^ up := Nat.mul_le_mul_right _ h
      _ < 2 ^ 53 * (q * 2 ^ down) := hU
      _ = 2 ^ (53 + down) * q := by rw [pow_add]; ring
  have h2 : 2 ^ (52 + up) < 2 ^ (53 + down) := Nat.lt_of_mul_lt_mul_right h1
  have h3 : 52 + up < 53 + down := (Nat.pow_lt_pow_iff_right (by decide)).1 h2
  have h4 : up = 0 := by omega
  rw [h4, pow_zero]

theorem round53_floor_representable (p q : Nat) (hq : 0 < q) :
    ∃ m k : Nat, m ≤ 2 ^ 53 ∧ (round53 p q).1 / (round53 p q).2 = m * 2 ^ k := by
  unfold round53
  by_cases hp : p = 0
  · rw [if_pos hp]
    exact ⟨0, 0, by decide, by simp⟩
  · rw [if_neg hp]
    have hp' : 0 < p := Nat.pos_of_ne_zero hp
    have hL := roundShift_lower p q hp' hq
    have hU := roundShift_upper p q hp' hq
    have hZ := roundShift_zero p q
    generalize (roundShift p q).1 = up at *
    generalize (roundShift p q).2 = down at *
    have hD : 0 < q * 2 ^ down := Nat.mul_pos hq (by positivity)
    obtain ⟨_, hm⟩ := roundQuotient_bounds (p * 2 ^ up) (q * 2 ^ down) hD hL hU
    generalize roundQuotient (p * 2 ^ up) (q * 2 ^ down) = m at *
    show ∃ m' k : Nat, m' ≤ 2 ^ 53 ∧ m * 2 ^ down / 2 ^ up = m' * 2 ^ k
    rcases hZ with h0 | h0
    · exact ⟨m, down, hm, by rw [h0, pow_zero, Nat.div_one]⟩
    · refine ⟨m / 2 ^ up, 0, le_trans (Nat.div_le_self _ _) hm, ?_⟩
      rw [h0, pow_zero, Nat.mul_one, Nat.mul_one]

theorem round53_exact (m k : Nat) (hm : m ≤ 2 ^ 53) :
    (round53 (m * 2 ^ k) 1).1 = m * 2 ^ k * (round53 (m * 2 ^ k) 1).2 := by
  unfold round53
  by_cases hp : m * 2 ^ k = 0
  · rw [if_pos hp, hp]
    rfl
  · rw [if_neg hp]
    have hp' : 0 < m * 2 ^ k := Nat.pos_of_ne_zero hp
    have hL := roundShift_lower (m * 2 ^ k) 1 hp' Nat.one_pos
    have hZ := roundShift_zero (m * 2 ^ k) 1
    generalize (roundShift (m * 2 ^ k) 1).1 = up at *
    generalize (roundShift (m * 2 ^ k) 1).2 = down at *
    show roundQuotient (m * 2 ^ k * 2 ^ up) (1 * 2 ^ down) * 2 ^ down = m * 2 ^ k * 2 ^ up
    have hc : ∃ c : Nat, m * 2 ^ k * 2 ^ up = c * (1 * 2 ^ down) := by
      rcases hZ with h0 | h0
      · rw [h0, pow_zero, Nat.mul_one] at hL
        have h1 : 2 ^ (52 + down) ≤ 2 ^ (53 + k) := by
          calc 2 ^ (52 + down) = 2 ^ 52 * (1 * 2 ^ down) := by rw [pow_add]; ring
            _ ≤ m * 2 ^ k := hL
            _ ≤ 2 ^ 53 * 2 ^ k := Nat.mul_le_mul_right _ hm
            _ = 2 ^ (53 + k) := by rw [pow_add]
        have h2 : 52 + down ≤ 53 + k := (Nat.pow_le_pow_iff_right (by decide)).1 h1
        rcases Nat.lt_or_ge k down with hk | hk
        · have hd : down = k + 1 := by omega
          subst hd
          have h3 : 2 ^ 53 * 2 ^ k ≤ m * 2 ^ k := by
            calc 2 ^ 53 * 2 ^ k = 2 ^ 52 * (1 * 2 ^ (k + 1)) := by rw [pow_succ]; ring
              _ ≤ m * 2 ^ k := hL
          have h4 : 2 ^ 53 ≤ m := Nat.le_of_mul_le_mul_right h3 (by positivity)
          have h5 : m = 2 ^ 53 := Nat.le_antisymm hm h4
          refine ⟨2 ^ 52, ?_⟩
          rw [h0, h5, pow_zero, pow_succ]
          ring
        · refine ⟨m * 2 ^ (k - down), ?_⟩
          have h3 : 2 ^ k = 2 ^ (k - down) * 2 ^ down := by
            rw [← pow_add]
            congr 1
            omega
          rw [h0, pow_zero, h3]
          ring
      · exact ⟨m * 2 ^ k * 2 ^ up, by rw [h0, pow_zero, Nat.mul_one, Nat.mul_one]⟩
    obtain ⟨c, hc⟩ := hc
    rw [hc, roundQuotient_mul c _ (by positivity)]
    ring


theorem round53_abs (p q e : Nat) (hq : 0 < q) (h : (p : ℚ) / q < 2 ^ e) :
    (0 : ℚ) < ((round53 p q).2 : ℚ)
      ∧ (p : ℚ) / q - 2 ^ e / 2 ^ 54 ≤ ((round53 p q).1 : ℚ) / (round53 p q).2
      ∧ ((round53 p q).1 : ℚ) / (round53 p q).2 ≤ (p : ℚ) / q + 2 ^ e / 2 ^ 54 := by
  have hq' : (0 : ℚ) < q := by exact_mod_cast hq
  have hE : (0 : ℚ) < 2 ^ e := by positivity
  by_cases hp : p = 0
  · subst hp
    have e0 : round53 0 q = (0, 1) := rfl
    rw [e0]
    norm_num
    positivity
  · have hp' : 0 < p := Nat.pos_of_ne_zero hp
    have h' : p < 2 ^ e * q := by
      rw [div_lt_iff₀ hq'] at h
      exact_mod_cast h
    have hsp := round53_spacing p q e hp' hq h'
    unfold round53
    rw [if_neg hp]
    generalize (roundShift p q).1 = up at *
    generalize (roundShift p q).2 = down at *
    obtain ⟨h1, h2⟩ := roundQuotient_near (p * 2 ^ up) (q * 2 ^ down)
      (Nat.mul_pos hq (by positivity))
    generalize roundQuotient (p * 2 ^ up) (q * 2 ^ down) = m at *
    show (0 : ℚ) < ((2 ^ up : ℕ) : ℚ)
      ∧ (p : ℚ) / q - 2 ^ e / 2 ^ 54 ≤ ((m * 2 ^ down : ℕ) : ℚ) / ((2 ^ up : ℕ) : ℚ)
      ∧ ((m * 2 ^ down : ℕ) : ℚ) / ((2 ^ up : ℕ) : ℚ) ≤ (p : ℚ) / q + 2 ^ e / 2 ^ 54
    have hsp' : (2 : ℚ) ^ 53 * 2 ^ down ≤ 2 ^ e * 2 ^ up := by exact_mod_cast hsp
    have h1' : 2 * ((m : ℚ) * (q * 2 ^ down)) ≤ 2 * (p * 2 ^ up) + q * 2 ^ down := by
      exact_mod_cast h1
    have h2' : 2 * ((p : ℚ) * 2 ^ up) ≤ 2 * (m * (q * 2 ^ down)) + q * 2 ^ down := by
      exact_mod_cast h2
    push_cast
    have hu : (0 : ℚ) < 2 ^ up := by positivity
    have hw : (0 : ℚ) < 2 ^ down := by positivity
    generalize (2 : ℚ) ^ up = u at *
    generalize (2 : ℚ) ^ down = w at *
    generalize (2 : ℚ) ^ e = E at *
    generalize (m : ℚ) = M at *
    generalize (p : ℚ) = P at *
    generalize (q : ℚ) = Q at *
    have hs : Q * (2 ^ 53 * w) ≤ Q * (E * u) := mul_le_mul_of_nonneg_left hsp' hq'.le
    refine ⟨hu, ?_, ?_⟩
    · rw [← sub_nonneg]
      have e1 : M * w / u - (P / Q - E / 2 ^ 54)
          = (2 ^ 54 * (M * (Q * w)) - 2 ^ 54 * (P * u) + Q * (E * u)) / (2 ^ 54 * (Q * u)) := by
        field_simp
        ring
      rw [e1]
      apply div_nonneg
      · linarith
      · positivity
    · rw [← sub_nonneg]
      have e1 : P / Q + E / 2 ^ 54 - M * w / u
          = (2 ^ 54 * (P * u) - 2 ^ 54 * (M * (Q * w)) + Q * (E * u)) / (2 ^ 54 * (Q * u)) := by
        field_simp
        ring
      rw [e1]
      apply div_nonneg
      · linarith
      · positivity

theorem binary64_ratios :
    binary64Synchronisation.ticksToOscTimeTag = (7555786370832214, 140737488355328)
      ∧ binary64Synchronisation.oscTimeTagToTicks = (5368709121250000, 288230376151711744)
      ∧ binary64Synchronisation.slaveClockOffset = 0 := by
  decide

theorem natDiv_val (n d : Nat) (hd : 0 < d) :
    ((n / d : ℕ) : ℚ) ≤ (n : ℚ) / d ∧ (n : ℚ) / d < ((n / d : ℕ) : ℚ) + 1 := by
  have hd' : (0 : ℚ) < d := by exact_mod_cast hd
  have h1 : d * (n / d) ≤ n := Nat.mul_div_le n d
  have h2 : n < d * (n / d + 1) := Nat.lt_mul_div_succ n hd
  constructor
  · rw [le_div_iff₀ hd']
    have : ((d * (n / d) : ℕ) : ℚ) ≤ (n : ℚ) := by exact_mod_cast h1
    push_cast at this
    linarith
  · rw [div_lt_iff₀ hd']
    have : ((n : ℕ) : ℚ) < ((d * (n / d + 1) : ℕ) : ℚ) := by exact_mod_cast h2
    push_cast at this
    linarith


theorem binary64_tulong_val (a : Nat × Nat) (ha : 0 < a.2) :
    ((binary64.tulong a : ℕ) : ℚ) ≤ (a.1 : ℚ) / a.2
      ∧ (a.1 : ℚ) / a.2 < ((binary64.tulong a : ℕ) : ℚ) + 1 :=
  natDiv_val a.1 a.2 ha


theorem binary64_tulong_integral (a : Nat × Nat) (h : a.2 = 1) :
    ((binary64.tulong a : ℕ) : ℚ) = (a.1 : ℚ) / a.2 := by
  show ((a.1 / a.2 : ℕ) : ℚ) = (a.1 : ℚ) / a.2
  rw [h, Nat.div_one, Nat.cast_one, div_one]

theorem binary64_fulong_exact (n : Nat) (h : ∃ m k : Nat, m ≤ 2 ^ 53 ∧ n = m * 2 ^ k) :
    0 < (binary64.fulong n).2
      ∧ ((binary64.fulong n).1 : ℚ) / (binary64.fulong n).2 = n := by
  obtain ⟨m, k, hm, rfl⟩ := h
  have h1 : (round53 (m * 2 ^ k) 1).1 = m * 2 ^ k * (round53 (m * 2 ^ k) 1).2 :=
    round53_exact m k hm
  have h2 : 0 < (round53 (m * 2 ^ k) 1).2 := round53_den_pos (m * 2 ^ k) 1
  show 0 < (round53 (m * 2 ^ k) 1).2
    ∧ ((round53 (m * 2 ^ k) 1).1 : ℚ) / (round53 (m * 2 ^ k) 1).2 = ((m * 2 ^ k : ℕ) : ℚ)
  refine ⟨h2, ?_⟩
  rw [h1]
  have h3 : ((round53 (m * 2 ^ k) 1).2 : ℚ) ≠ 0 := by exact_mod_cast (Nat.ne_of_gt h2)
  rw [Nat.cast_mul, mul_div_assoc, div_self h3, mul_one]

theorem binary64_mul_abs (a : Nat × Nat) (n d e : Nat) (ha : 0 < a.2) (hd : 0 < d)
    (h : ((a.1 : ℚ) / a.2) * ((n : ℚ) / d) < 2 ^ e) :
    0 < (binary64.mul a (n, d)).2
      ∧ ((a.1 : ℚ) / a.2) * ((n : ℚ) / d) - 2 ^ e / 2 ^ 54
          ≤ ((binary64.mul a (n, d)).1 : ℚ) / (binary64.mul a (n, d)).2
      ∧ ((binary64.mul a (n, d)).1 : ℚ) / (binary64.mul a (n, d)).2
          ≤ ((a.1 : ℚ) / a.2) * ((n : ℚ) / d) + 2 ^ e / 2 ^ 54 := by
  have e1 : (((a.1 * n : ℕ) : ℚ)) / ((a.2 * d : ℕ) : ℚ) = ((a.1 : ℚ) / a.2) * ((n : ℚ) / d) := by
    rw [Nat.cast_mul, Nat.cast_mul, mul_div_mul_comm]
  obtain ⟨h0, h1, h2⟩ := round53_abs (a.1 * n) (a.2 * d) e (Nat.mul_pos ha hd) (by rw [e1]; exact h)
  rw [e1] at h1 h2
  exact ⟨by exact_mod_cast h0, h1, h2⟩

theorem binary64_mul_integral (a : Nat × Nat) (n d : Nat) (ha : 0 < a.2) (hd : 0 < d)
    (h : 2 ^ 52 ≤ ((a.1 : ℚ) / a.2) * ((n : ℚ) / d)) :
    (binary64.mul a (n, d)).2 = 1 := by
  have e1 : (((a.1 * n : ℕ) : ℚ)) / ((a.2 * d : ℕ) : ℚ) = ((a.1 : ℚ) / a.2) * ((n : ℚ) / d) := by
    rw [Nat.cast_mul, Nat.cast_mul, mul_div_mul_comm]
  have hq : 0 < a.2 * d := Nat.mul_pos ha hd
  have hq' : (0 : ℚ) < ((a.2 * d : ℕ) : ℚ) := by exact_mod_cast hq
  rw [← e1, le_div_iff₀ hq'] at h
  exact round53_integral (a.1 * n) (a.2 * d) hq (by exact_mod_cast h)

theorem binary64_tulong_representable (a : Nat × Nat) (n d : Nat) (ha : 0 < a.2)
    (hd : 0 < d) :
    ∃ m k : Nat, m ≤ 2 ^ 53 ∧ binary64.tulong (binary64.mul a (n, d)) = m * 2 ^ k :=
  round53_floor_representable (a.1 * n) (a.2 * d) (Nat.mul_pos ha hd)

theorem binary64_chain (t : Nat) (ht : t < 2 ^ 53) :
    binary64.tulong (binary64.mul (binary64.fulong t) (7555786370832214, 140737488355328))
        < 2 ^ 64
      ∧ binary64.tulong (binary64.mul
          (binary64.fulong (binary64.tulong
            (binary64.mul (binary64.fulong t) (7555786370832214, 140737488355328))))
          (5368709121250000, 288230376151711744)) ≤ t + 1
      ∧ t ≤ binary64.tulong (binary64.mul
          (binary64.fulong (binary64.tulong
            (binary64.mul (binary64.fulong t) (7555786370832214, 140737488355328))))
          (5368709121250000, 288230376151711744)) + 1 := by
  have ht' : (t : ℚ) ≤ 9007199254740991 := by
    have : t ≤ 9007199254740991 := by omega
    exact_mod_cast this
  have ht0 : (0 : ℚ) ≤ t := Nat.cast_nonneg t
  obtain ⟨a0, a1⟩ := binary64_fulong_exact t ⟨t, 0, Nat.le_of_lt ht, by rw [pow_zero, Nat.mul_one]⟩
  have hx : ((binary64.fulong t).1 : ℚ) / (binary64.fulong t).2
      * ((7555786370832214 : ℕ) / (140737488355328 : ℕ)) < 2 ^ 59 := by
    rw [a1]
    norm_num
    linarith
  obtain ⟨b0, b1, b2⟩ := binary64_mul_abs (binary64.fulong t) 7555786370832214 140737488355328
    59 a0 (by norm_num) hx
  rw [a1] at b1 b2
  obtain ⟨c1, c2⟩ := binary64_tulong_val _ b0
  have hrep := binary64_tulong_representable (binary64.fulong t) 7555786370832214
    140737488355328 a0 (by norm_num)
  generalize ((binary64.mul (binary64.fulong t) (7555786370832214, 140737488355328)).1 : ℚ)
    / (binary64.mul (binary64.fulong t) (7555786370832214, 140737488355328)).2 = X at *
  generalize binary64.tulong
    (binary64.mul (binary64.fulong t) (7555786370832214, 140737488355328)) = G at *
  norm_num at b1 b2
  obtain ⟨d0, d1⟩ := binary64_fulong_exact G hrep
  have hz : ((binary64.fulong G).1 : ℚ) / (binary64.fulong G).2
      * ((5368709121250000 : ℕ) / (288230376151711744 : ℕ)) < 2 ^ 53 := by
    rw [d1]
    norm_num
    linarith
  obtain ⟨e0, e1, e2⟩ := binary64_mul_abs (binary64.fulong G) 5368709121250000
    288230376151711744 53 d0 (by norm_num) hz
  have hlow : ((binary64.fulong G).1 : ℚ) / (binary64.fulong G).2
        * ((5368709121250000 : ℕ) / (288230376151711744 : ℕ)) < 2 ^ 52 →
      ((binary64.fulong G).1 : ℚ) / (binary64.fulong G).2
          * ((5368709121250000 : ℕ) / (288230376151711744 : ℕ)) - 2 ^ 52 / 2 ^ 54
        ≤ ((binary64.mul (binary64.fulong G) (5368709121250000, 288230376151711744)).1 : ℚ)
          / (binary64.mul (binary64.fulong G) (5368709121250000, 288230376151711744)).2 :=
    fun h => (binary64_mul_abs (binary64.fulong G) 5368709121250000 288230376151711744 52
      d0 (by norm_num) h).2.1
  have hint : 2 ^ 52 ≤ ((binary64.fulong G).1 : ℚ) / (binary64.fulong G).2
        * ((5368709121250000 : ℕ) / (288230376151711744 : ℕ)) →
      ((binary64.tulong
          (binary64.mul (binary64.fulong G) (5368709121250000, 288230376151711744)) : ℕ) : ℚ)
        = ((binary64.mul (binary64.fulong G) (5368709121250000, 288230376151711744)).1 : ℚ)
          / (binary64.mul (binary64.fulong G) (5368709121250000, 288230376151711744)).2 :=
    fun h => binary64_tulong_integral _
      (binary64_mul_integral (binary64.fulong G) 5368709121250000 288230376151711744
        d0 (by norm_num) h)
  obtain ⟨f1, f2⟩ := binary64_tulong_val _ e0
  rw [d1] at e1 e2 hlow hint
  generalize ((binary64.mul (binary64.fulong G) (5368709121250000, 288230376151711744)).1 : ℚ)
    / (binary64.mul (binary64.fulong G) (5368709121250000, 288230376151711744)).2 = Y at *
  generalize binary64.tulong
    (binary64.mul (binary64.fulong G) (5368709121250000, 288230376151711744)) = R at *
  norm_num at e1 e2 hlow hint
  have hG : (G : ℚ) < 2 ^ 64 := by linarith
  have hR1 : (R : ℚ) < t + 2 := by linarith
  have hR2 : (t : ℚ) < R + 2 := by
    rcases lt_or_le ((G : ℚ) * (5368709121250000 / 288230376151711744)) (2 ^ 52) with h | h
    · have := hlow (by norm_num at h ⊢; linarith)
      linarith
    · have := hint (by norm_num at h ⊢; linarith)
      linarith
  refine ⟨by exact_mod_cast hG, ?_, ?_⟩
  · have : R < t + 2 := by exact_mod_cast hR1
    omega
  · have : t < R + 2 := by exact_mod_cast hR2
    omega


theorem binary64_initialised (s : Synchronisation (Nat × Nat)) :
    (SynchronisationInitialise binary64 s).ticksToOscTimeTag
        = (7555786370832214, 140737488355328)
      ∧ (SynchronisationInitialise binary64 s).oscTimeTagToTicks
        = (5368709121250000, 288230376151711744)
      ∧ (SynchronisationInitialise binary64 s).slaveClockOffset = s.slaveClockOffset :=
  ⟨binary64_ratios.1, binary64_ratios.2.1, rfl⟩

set_option maxRecDepth 100000 in
theorem binary64_timeTag_example :
    SynchronisationTicksToOscTimeTag binary64 binary64Synchronisation 36028797018963970
      = 1934281310933046784 := by
  decide

set_option maxRecDepth 100000 in
theorem binary64_observed_example :
    observedMasterClock binary64 binary64Synchronisation 1934281310933046784
      = 36028797018963968 := by
  decide

set_option maxRecDepth 100000 in
theorem binary64_timeTag_example_above :
    SynchronisationTicksToOscTimeTag binary64 binary64Synchronisation 10737418242500006
      = 576460752303423872 := by
  decide

set_option maxRecDepth 100000 in
theorem binary64_observed_example_above :
    observedMasterClock binary64 binary64Synchronisation 576460752303423872
      = 10737418242500008 := by
  decide

/-! ## Claims on the round trip of the conversions -/

/-- C15: under binary64 arithmetic with the slave offset 0, the tick value
36,028,797,018,963,970 (2 ^ 55 + 2) converts to the time tag 1,934,281,310,933,046,784,
which converts back to 36,028,797,018,963,968, two ticks less; and the tick value
10,737,418,242,500,006 converts to the time tag 576,460,752,303,423,872, which converts
back to 10,737,418,242,500,008, two ticks more. -/
theorem binary64_round_trip_two_ticks_off :
    binary64Synchronisation.slaveClockOffset = 0
      ∧ SynchronisationTicksToOscTimeTag binary64 binary64Synchronisation 36028797018963970
        = 1934281310933046784
      ∧ observedMasterClock binary64 binary64Synchronisation 1934281310933046784
        = 36028797018963968
      ∧ observedMasterClock binary64 binary64Synchronisation
            (SynchronisationTicksToOscTimeTag binary64 binary64Synchronisation
              36028797018963970) + 2
        = 36028797018963970
      ∧ observedMasterClock binary64 binary64Synchronisation
            (SynchronisationTicksToOscTimeTag binary64 binary64Synchronisation
              10737418242500006)
        = 10737418242500006 + 2 :=
  ⟨rfl, binary64_timeTag_example, binary64_observed_example,
    by rw [binary64_timeTag_example, binary64_observed_example],
    by rw [binary64_timeTag_example_above, binary64_observed_example_above]⟩

/-- C15 as amended: under binary64 arithmetic, after `SynchronisationInitialise` and with
`slaveClockOffset = 0`, for every tick value `t` below `2 ^ 53` the time tag of `t`
converted back the way `SynchronisationUpdate` does differs from `t` by at most one
tick. -/
theorem binary64_round_trip (s : Synchronisation (Nat × Nat)) (hs : s.slaveClockOffset = 0)
    (t : Nat) (ht : t < 2 ^ 53) :
    observedMasterClock binary64 (SynchronisationInitialise binary64 s)
          (SynchronisationTicksToOscTimeTag binary64 (SynchronisationInitialise binary64 s) t)
        ≤ t + 1
      ∧ t ≤ observedMasterClock binary64 (SynchronisationInitialise binary64 s)
          (SynchronisationTicksToOscTimeTag binary64 (SynchronisationInitialise binary64 s) t)
          + 1 := by
  obtain ⟨e1, e2, e3⟩ := binary64_initialised s
  obtain ⟨h1, h2, h3⟩ := binary64_chain t ht
  have ht64 : t + 1 < 2 ^ 64 :=
    lt_of_le_of_lt (Nat.succ_le_of_lt ht) (Nat.pow_lt_pow_right (by decide) (by decide))
  have hT : SynchronisationTicksToOscTimeTag binary64 (SynchronisationInitialise binary64 s) t
      = binary64.tulong
          (binary64.mul (binary64.fulong t) (7555786370832214, 140737488355328)) := by
    unfold SynchronisationTicksToOscTimeTag
    rw [e1, e3, hs, Nat.add_zero, Nat.mod_eq_of_lt (lt_trans (Nat.lt_succ_self t) ht64),
      Nat.mod_eq_of_lt h1]
  rw [hT]
  unfold observedMasterClock
  rw [e2, Nat.mod_eq_of_lt (lt_of_le_of_lt h2 ht64)]
  exact ⟨h2, h3⟩

theorem binary64_round_trip_witness :
    (230584300814 < 2 ^ 53)
      ∧ (observedMasterClock binary64 (SynchronisationInitialise binary64 startSynchronisation)
          (SynchronisationTicksToOscTimeTag binary64
            (SynchronisationInitialise binary64 startSynchronisation) 230584300814)
          ≤ 230584300814 + 1
        ∧ 230584300814 ≤ observedMasterClock binary64
            (SynchronisationInitialise binary64 startSynchronisation)
            (SynchronisationTicksToOscTimeTag binary64
              (SynchronisationInitialise binary64 startSynchronisation) 230584300814) + 1) :=
  ⟨by decide, binary64_round_trip startSynchronisation rfl 230584300814 (by decide)⟩

end OscSync
